import Mathlib

/-!
Verification development for the exam mastering transformation
(packages/mex: `masterExam` / `masterExamVersion` and its passes).

The TypeScript source is shallowly embedded: each mastering pass becomes a
pure Lean function over a typed model of the parsed exam tree, mirroring the
in-place attribute mutations of the source as value updates.  JavaScript
peculiarities that the source relies on are embedded explicitly:

* object spread `{...defaultOptions, ...options}` distinguishes an absent key
  (default wins) from a key explicitly present with value `undefined`
  (overrides the default) — modelled by `JsField`;
* `if (x)` truthiness on strings (empty string is falsy) and on numbers
  (0 is falsy) — modelled by `jsTruthyStr` / `jsTruthyNum`;
* `String(undefined) = "undefined"` and lodash `_.max([]) = undefined` —
  modelled by `jsNumberString` / `lodashMax`;
* lodash `_.sortBy` / `_.orderBy(_, _.identity, desc)` are stable sorts —
  modelled by `List.insertionSort` with a total boolean preorder, which is
  the same stable sort;
* `crypto.createHash(sha256).update(v).digest(hex)` — modelled by a full
  SHA-256 implementation over the UTF-8 bytes of the input, producing the
  lowercase hex digest.

Helpers imported by the mastering module from `./utils` and `./schema`
(`getAttribute`, `getNumericAttribute`, `byName`, `byAttribute`,
`answerTypes`, `choiceAnswerTypes`, …) are not part of the provided sources;
they are modelled from the spec and from their call sites, as noted on the
corresponding definitions.
-/

namespace Sha256

def wordMod (x : Nat) : Nat := x % 4294967296

def rotr (n x : Nat) : Nat := wordMod ((x >>> n) ||| (x <<< (32 - n)))

def bigSigma0 (x : Nat) : Nat := (rotr 2 x) ^^^ (rotr 13 x) ^^^ (rotr 22 x)

def bigSigma1 (x : Nat) : Nat := (rotr 6 x) ^^^ (rotr 11 x) ^^^ (rotr 25 x)

def smallSigma0 (x : Nat) : Nat := (rotr 7 x) ^^^ (rotr 18 x) ^^^ (x >>> 3)

def smallSigma1 (x : Nat) : Nat := (rotr 17 x) ^^^ (rotr 19 x) ^^^ (x >>> 10)

def roundConstants : List Nat :=
  [1116352408, 1899447441, 3049323471, 3921009573, 961987163, 1508970993,
   2453635748, 2870763221, 3624381080, 310598401, 607225278, 1426881987,
   1925078388, 2162078206, 2614888103, 3248222580, 3835390401, 4022224774,
   264347078, 604807628, 770255983, 1249150122, 1555081692, 1996064986,
   2554220882, 2821834349, 2952996808, 3210313671, 3336571891, 3584528711,
   113926993, 338241895, 666307205, 773529912, 1294757372, 1396182291,
   1695183700, 1986661051, 2177026350, 2456956037, 2730485921, 2820302411,
   3259730800, 3345764771, 3516065817, 3600352804, 4094571909, 275423344,
   430227734, 506948616, 659060556, 883997877, 958139571, 1322822218,
   1537002063, 1747873779, 1955562222, 2024104815, 2227730452, 2361852424,
   2428436474, 2756734187, 3204031479, 3329325298]

def initialHash : List Nat :=
  [1779033703, 3144134277, 1013904242, 2773480762,
   1359893119, 2600822924, 528734635, 1541459225]

/-- Pad a byte message per SHA-256: append 0x80, zeros, and the 64-bit big-endian bit length. -/
def pad (msg : List Nat) : List Nat :=
  let len := msg.length
  let bitLen := len * 8
  let zeros := (64 - ((len + 9) % 64)) % 64
  msg ++ [0x80] ++ List.replicate zeros 0 ++
    [(bitLen >>> 56) % 256, (bitLen >>> 48) % 256, (bitLen >>> 40) % 256, (bitLen >>> 32) % 256,
     (bitLen >>> 24) % 256, (bitLen >>> 16) % 256, (bitLen >>> 8) % 256, bitLen % 256]

/-- Group bytes into 32-bit big-endian words. -/
def toWords : List Nat → List Nat
  | b0 :: b1 :: b2 :: b3 :: rest => (((b0 * 256 + b1) * 256 + b2) * 256 + b3) :: toWords rest
  | _ => []

/-- Message-schedule extension; `acc` is the reversed list of words produced so far. -/
def extend : Nat → List Nat → List Nat
  | 0, acc => acc.reverse
  | n + 1, acc =>
    let w2 := acc.getD 1 0
    let w7 := acc.getD 6 0
    let w15 := acc.getD 14 0
    let w16 := acc.getD 15 0
    extend n (wordMod (smallSigma1 w2 + w7 + smallSigma0 w15 + w16) :: acc)

structure St where
  a : Nat
  b : Nat
  c : Nat
  d : Nat
  e : Nat
  f : Nat
  g : Nat
  h : Nat

def round (s : St) (kw : Nat × Nat) : St :=
  let t1 := wordMod (s.h + bigSigma1 s.e + ((s.e &&& s.f) ^^^ ((s.e ^^^ 0xffffffff) &&& s.g)) + kw.1 + kw.2)
  let t2 := wordMod (bigSigma0 s.a + ((s.a &&& s.b) ^^^ (s.a &&& s.c) ^^^ (s.b &&& s.c)))
  ⟨wordMod (t1 + t2), s.a, s.b, s.c, wordMod (s.d + t1), s.e, s.f, s.g⟩

def compress (h : List Nat) (block : List Nat) : List Nat :=
  let w := extend 48 (toWords block).reverse
  let s0 : St := ⟨h.getD 0 0, h.getD 1 0, h.getD 2 0, h.getD 3 0, h.getD 4 0, h.getD 5 0, h.getD 6 0, h.getD 7 0⟩
  let s := (roundConstants.zip w).foldl round s0
  [wordMod (h.getD 0 0 + s.a), wordMod (h.getD 1 0 + s.b), wordMod (h.getD 2 0 + s.c),
   wordMod (h.getD 3 0 + s.d), wordMod (h.getD 4 0 + s.e), wordMod (h.getD 5 0 + s.f),
   wordMod (h.getD 6 0 + s.g), wordMod (h.getD 7 0 + s.h)]

def chunksAux : Nat → List Nat → List (List Nat)
  | 0, _ => []
  | _ + 1, [] => []
  | n + 1, x :: xs => ((x :: xs).take 64) :: chunksAux n ((x :: xs).drop 64)

def chunks (l : List Nat) : List (List Nat) := chunksAux l.length l

/-- The eight 32-bit words of the SHA-256 digest of a byte message. -/
def sha256Words (msg : List Nat) : List Nat :=
  (chunks (pad msg)).foldl compress initialHash

def hexDigit (n : Nat) : Char := if n < 10 then Char.ofNat (48 + n) else Char.ofNat (87 + n)

def wordHex (w : Nat) : List Char :=
  [hexDigit ((w >>> 28) % 16), hexDigit ((w >>> 24) % 16), hexDigit ((w >>> 20) % 16),
   hexDigit ((w >>> 16) % 16), hexDigit ((w >>> 12) % 16), hexDigit ((w >>> 8) % 16),
   hexDigit ((w >>> 4) % 16), hexDigit (w % 16)]

/-- Lowercase hex rendering of a digest, as the list of its characters. -/
def digestHex (msg : List Nat) : List Char := (sha256Words msg).flatMap wordHex

/-- UTF-8 encoding of one character (as byte values). -/
def encodeChar (c : Char) : List Nat :=
  let n := c.toNat
  if n < 0x80 then [n]
  else if n < 0x800 then [0xc0 ||| (n >>> 6), 0x80 ||| (n &&& 0x3f)]
  else if n < 0x10000 then [0xe0 ||| (n >>> 12), 0x80 ||| ((n >>> 6) &&& 0x3f), 0x80 ||| (n &&& 0x3f)]
  else [0xf0 ||| (n >>> 18), 0x80 ||| ((n >>> 12) &&& 0x3f), 0x80 ||| ((n >>> 6) &&& 0x3f), 0x80 ||| (n &&& 0x3f)]

def utf8Bytes (s : String) : List Nat := s.data.flatMap encodeChar

/-- Embedding of `createHash` in `shuffleAnswerOptions`: Node
`crypto.createHash(sha256).update(value).digest(hex)`, i.e. the lowercase
hex SHA-256 digest of the UTF-8 bytes of the string, as a character list
(JavaScript strings are compared character by character, which `List Char`
mirrors). -/
def createHash (s : String) : List Char := digestHex (utf8Bytes s)

/-- The digest interpreted as a single natural number (big-endian), i.e. the
numeric hash value that the hex string denotes. -/
def digestVal (msg : List Nat) : Nat :=
  (sha256Words msg).foldl (fun acc w => acc * 4294967296 + w) 0

end Sha256

/-- Lexicographic less-or-equal on character lists by code point, matching the
JavaScript string comparison that lodash `_.sortBy` performs on the hex digest
strings (for ASCII strings, UTF-16 unit order is code-point order). -/
def hexCharsLe : List Char → List Char → Bool
  | [], _ => true
  | _ :: _, [] => false
  | a :: as, b :: bs => if a = b then hexCharsLe as bs else decide (a.toNat < b.toNat)

/-! ## Mastering options (`MasteringOptions`, `defaultOptions`, `{...defaultOptions, ...options}`) -/

/-- A JavaScript object field: absent from the object, present with value
`undefined`, or present with a value.  The distinction matters because object
spread `{...defaults, ...options}` lets a present-but-undefined key override
the default, while an absent key does not. -/
inductive JsField (α : Type) where
  | absent
  | undef
  | val (a : α)
deriving DecidableEq

/-- The options object passed by the caller to `masterExam` (only the fields
the claims are about). -/
structure MasteringOptionsJs where
  multiChoiceShuffleSecret : JsField String := .absent
  removeCorrectAnswers : JsField Bool := .absent
deriving DecidableEq

/-- `defaultOptions.multiChoiceShuffleSecret` from the source. -/
def defaultShuffleSecret : String :=
  "tJXjzAhY3dT4B26aikG2tPmPRlWRTKXF5eVpOR2eDFz3Aj4a3FHF1jB3tswVWPhc"

/-- The `multiChoiceShuffleSecret` field of
`optionsWithDefaults = { ...defaultOptions, ...options }` in `masterExam`:
when the caller passes no options object or an object without the key, the
default secret wins; a key present with value `undefined` (or a string)
overrides it.  `none` stands for the JavaScript value `undefined`. -/
def effectiveShuffleSecret : Option MasteringOptionsJs → Option String
  | none => some defaultShuffleSecret
  | some o =>
    match o.multiChoiceShuffleSecret with
    | .absent => some defaultShuffleSecret
    | .undef => none
    | .val s => some s

/-- The `removeCorrectAnswers` field of `optionsWithDefaults`, with
`defaultOptions.removeCorrectAnswers = true`. -/
def effectiveRemoveCorrectAnswersValue : Option MasteringOptionsJs → Option Bool
  | none => some true
  | some o =>
    match o.removeCorrectAnswers with
    | .absent => some true
    | .undef => none
    | .val b => some b

/-- JavaScript truthiness of a string-or-undefined value: `undefined` and the
empty string are falsy (`if (options.multiChoiceShuffleSecret)`). -/
def jsTruthyStr : Option String → Bool
  | none => false
  | some s => s ≠ ""

/-- JavaScript truthiness of a boolean-or-undefined value
(`if (options.removeCorrectAnswers)`). -/
def jsTruthyBool : Option Bool → Bool
  | none => false
  | some b => b

/-! ## Answer-option shuffling (`shuffleAnswerOptions`) -/

/-- `choiceAnswerTypes` from `./schema`.  Modelled from the spec: the schema
module is not among the provided sources; the spec and the shuffling /
redaction code identify these as the choice-style answers whose options are
`choice-answer-option` / `dropdown-answer-option` elements. -/
def choiceAnswerTypes : List String := ["choice-answer", "dropdown-answer"]

/-- One `choice-answer-option` / `dropdown-answer-option` element.  `typ` is
the `type` attribute (`getAttribute` with default `normal` reads it);
`score` is the `score` attribute; `text` stands for the element content and
serves only to tell options apart, as element identity does in the DOM. -/
structure AnsOption where
  typ : Option String := none
  score : Option Int := none
  text : String := ""
deriving DecidableEq

def dummyAnsOption : AnsOption := {}

/-- A choice/dropdown answer element as `shuffleAnswerOptions` sees it after
`addQuestionIds` ran: `name` is the element name, `questionId` the value of
the `question-id` attribute, `ordering` the `ordering` attribute. -/
structure ChAnswer where
  name : String
  questionId : String
  ordering : Option String := none
  options : List AnsOption
deriving DecidableEq

def dummyChAnswer : ChAnswer := { name := "", questionId := "", options := [] }

/-- The sort key computed inside `shuffleAnswerOptions` for the option at
original position `i`: `createHash(answerKey + String(options.indexOf(option)) + secret)`
with `answerKey = String(options.length) + getAttribute(question-id, answer)`. -/
def shuffleHash (optionCount : Nat) (answerId : String) (secret : String) (i : Nat) : List Char :=
  Sha256.createHash (toString optionCount ++ answerId ++ toString i ++ secret)

/-- Embedding of the body of the `forEach` in `shuffleAnswerOptions` for one
answer.  Options are paired with their original positions, which stand for DOM
element identity (`options.indexOf(option)` recovers exactly that position,
all elements being distinct nodes).  `_.sortBy` is a stable sort by the hash
key; the `addChild` loop moves the children into the sorted order; the final
`addChild` moves the first option whose `type` attribute (default `normal`)
is `no-answer` to the last position. -/
def shuffleOne (secret : String) (a : ChAnswer) : ChAnswer :=
  let indexed := a.options.enum
  let answerKey := toString a.options.length ++ a.questionId
  let hashKey := fun (p : Nat × AnsOption) =>
    Sha256.createHash (answerKey ++ toString p.1 ++ secret)
  let sortedOptions :=
    List.insertionSort (fun p q => hexCharsLe (hashKey p) (hashKey q) = true) indexed
  let noAnswerOption := indexed.find? (fun p => p.2.typ.getD "normal" = "no-answer")
  let finalOrder : List (Nat × AnsOption) :=
    match noAnswerOption with
    | some na => (sortedOptions.filter (fun p : Nat × AnsOption => p.1 ≠ na.1)) ++ [na]
    | none => sortedOptions
  { a with options := finalOrder.map (fun p : Nat × AnsOption => p.2) }

/-- Embedding of `shuffleAnswerOptions(exam, secret)`: every answer of the exam
whose element name is a choice answer type and whose `ordering` attribute is
not `fixed` (`.filter(byName(...choiceAnswerTypes)).filter(_.negate(byAttribute(ordering, fixed)))`)
is shuffled in place; all other answers are untouched. -/
def shuffleAnswerOptions (secret : String) (answers : List ChAnswer) : List ChAnswer :=
  answers.map fun a =>
    if a.name ∈ choiceAnswerTypes ∧ a.ordering ≠ some "fixed" then shuffleOne secret a else a

/-- The shuffle step of `masterExamVersion`:
`if (options.multiChoiceShuffleSecret) shuffleAnswerOptions(exam, options.multiChoiceShuffleSecret)`,
applied to the merged options object. -/
def masteredChoiceAnswers (opts : Option MasteringOptionsJs) (answers : List ChAnswer) : List ChAnswer :=
  let secret := effectiveShuffleSecret opts
  if jsTruthyStr secret then shuffleAnswerOptions (secret.getD "") answers else answers

/-- Spec-side permutation: the original option positions `0..optionCount-1`
sorted ascending by the numeric value of the SHA-256 hash of
`optionCount + answerId + i + secret`.  It mentions nothing but
`(optionCount, answerId, secret)`. -/
def shufflePermutation (optionCount : Nat) (answerId : String) (secret : String) : List Nat :=
  List.insertionSort
    (fun i j =>
      Sha256.digestVal (Sha256.utf8Bytes (toString optionCount ++ answerId ++ toString i ++ secret)) ≤
      Sha256.digestVal (Sha256.utf8Bytes (toString optionCount ++ answerId ++ toString j ++ secret)))
    (List.range optionCount)

/-- Reordering a list of options by a list of positions. -/
def permuteBy (perm : List Nat) (options : List AnsOption) : List AnsOption :=
  perm.map (fun i => options.getD i dummyAnsOption)

/-! ## Exam versions, validation of root attributes, and `generateUuid` calls (`masterExam`) -/

/-- One `exam-version` declaration: its `lang` attribute and optional
`exam-type` attribute (`getAttribute(exam-type, examVersion, normal)`). -/
structure ExamVersionDecl where
  lang : String
  examType : Option String := none
deriving DecidableEq

/-- The root attributes of an exam source relevant to `masterExam` /
`assertExamIsValid`, plus the declared versions. -/
structure ExamSource where
  examCode : Option String := none
  dayCode : Option String := none
  date : Option String := none
  versions : List ExamVersionDecl := []
deriving DecidableEq

def examCodesRequiringDayCode : List String := ["A", "O"]

/-- The root-attribute section of `assertExamIsValid` (the day-code / exam-code
consistency checks); `getAttribute(exam-code, root, )` and
`getAttribute(day-code, root, )` default to the empty string, and the empty
string is falsy. -/
def assertRootAttributes (src : ExamSource) : Except String Unit :=
  let examCode := src.examCode.getD ""
  let dayCode := src.dayCode.getD ""
  if dayCode ≠ "" then
    if examCode ∈ examCodesRequiringDayCode then Except.ok ()
    else Except.error ("Invalid exam-code " ++ examCode ++ " for day-code " ++ dayCode)
  else
    if examCode ∈ examCodesRequiringDayCode then
      Except.error ("Invalid empty day-code for exam-code " ++ examCode)
    else Except.ok ()

/-- The metadata `addExamMetadata` passes to `generateUuid` for one version:
present only when both `exam-code` and `date` exist on the root. -/
structure UuidMeta where
  examCode : String
  date : String
  language : String
  examType : String
deriving DecidableEq

def uuidCallMetadata (src : ExamSource) (v : ExamVersionDecl) : Option UuidMeta :=
  match src.examCode, src.date with
  | some c, some d => some ⟨c, d, v.lang, v.examType.getD "normal"⟩
  | _, _ => none

/-- The sequence of `generateUuid` calls (with their metadata arguments) a
`masterExam` run performs: `parseExam(xml, true)` validates first (so an
invalid source produces an error before any call), then one
`masterExamVersion` per declared version calls `generateUuid` exactly once
through `addExamMetadata`.  Only the root-attribute part of validation is
embedded; the schema-level checks concern parts of the document this model
does not carry. -/
def masterExamUuidCalls (src : ExamSource) : Except String (List (Option UuidMeta)) := do
  let _ ← assertRootAttributes src
  pure (src.versions.map (uuidCallMetadata src))

/-! ## The parsed exam structure (`parseExamStructure` / `./schema` types)

`parseExamStructure` builds `Exam = { element, sections, questions,
topLevelQuestions, answers }` with `Section = { element, questions }` and
`Question = { element, childQuestions, answers }`; a question has either
child questions or answers, never both (`parseQuestion`, backed by the
validation rule rejecting a question that contains both).  The model keeps,
for every node, exactly the attributes and children the claims touch. -/

/-- A leaf answer element as the scoring passes see it: its `max-score`
attribute (already materialised by `updateMaxScoresToAnswers` for
choice/dropdown/scored-text answers, declared for the rest — `countMaxScores`
reads it with `getNumericAttribute` without default, so it must exist). -/
structure AnswerLeaf where
  maxScore : Int := 0
deriving DecidableEq

/-- A `question` element: its `max-answers` attribute, the number of
`./external-material/attachment` children, its answers and its child
questions. -/
inductive QuestionT where
  | mk (maxAnswers : Option Int) (extMaterialAttachments : Nat)
      (answers : List AnswerLeaf) (children : List QuestionT)

def QuestionT.maxAnswers : QuestionT → Option Int
  | .mk ma _ _ _ => ma

def QuestionT.extMaterialAttachments : QuestionT → Nat
  | .mk _ e _ _ => e

def QuestionT.answers : QuestionT → List AnswerLeaf
  | .mk _ _ a _ => a

def QuestionT.children : QuestionT → List QuestionT
  | .mk _ _ _ c => c

/-- A `section` element: its `max-answers` / `min-answers` attributes and its
questions. -/
structure SectionT where
  maxAnswers : Option Int := none
  minAnswers : Option Int := none
  questions : List QuestionT := []

/-- The exam root: its `max-answers` attribute, the number of exam-level
`./external-material/attachment` children, and its sections. -/
structure ExamT where
  maxAnswers : Option Int := none
  extMaterialAttachments : Nat := 0
  sections : List SectionT := []

/-! ## Score aggregation (`countMaxScores`) -/

/-- Stable descending sort of a score list:
`_.orderBy(maxScores, _.identity, desc)` (lodash `orderBy` is a stable
sort). -/
def sortDescInt (l : List Int) : List Int :=
  List.insertionSort (fun a b => b ≤ a) l

/-- The count to take: `maxAnswers ?? answerables.length` (lodash `_.take`
truncates a negative count to zero, which `Int.toNat` mirrors). -/
def jsTakeCount (maxAnswers : Option Int) (len : Nat) : Nat :=
  match maxAnswers with
  | some v => v.toNat
  | none => len

/-- Embedding of the inner `countMaxScore(answerables, maxAnswers)`: the sum
of the first `maxAnswers ?? length` entries of the max-scores sorted
descending (stably, so ties keep document order). -/
def countMaxScore (maxScores : List Int) (maxAnswers : Option Int) : Int :=
  ((sortDescInt maxScores).take (jsTakeCount maxAnswers maxScores.length)).sum

mutual
/-- Embedding of `countQuestionMaxScores`: the `max-score` attribute written
on a question.  Child questions are processed first, so the parent reads the
freshly computed `max-score` of each child; a question with child questions
aggregates those, otherwise its own answers
(`question.childQuestions.length ? question.childQuestions : question.answers`). -/
def questionMaxScore : QuestionT → Int
  | .mk ma _ answers children =>
    countMaxScore
      (if children.length ≠ 0 then questionMaxScoreList children
       else answers.map (fun a => a.maxScore))
      ma

def questionMaxScoreList : List QuestionT → List Int
  | [] => []
  | q :: qs => questionMaxScore q :: questionMaxScoreList qs
end

/-- Embedding of the per-section part of `countSectionMaxScores`: the
`max-score` attribute written on a section aggregates its questions with the
section's `max-answers`. -/
def sectionMaxScore (s : SectionT) : Int :=
  countMaxScore (questionMaxScoreList s.questions) s.maxAnswers

/-- Stable descending sort of questions by their (computed) `max-score`:
`_.orderBy(questions, q => getNumericAttribute(max-score, q), desc)`. -/
def sortQuestionsByMaxScoreDesc (qs : List QuestionT) : List QuestionT :=
  List.insertionSort (fun a b => questionMaxScore b ≤ questionMaxScore a) qs

/-- `questionsWithHighestMaxScoresPerSection` in `countExamMaxScore`: from
each section, its top (`max-answers` ?? all) questions by max-score. -/
def examTopQuestionsPool (e : ExamT) : List QuestionT :=
  e.sections.flatMap fun s =>
    (sortQuestionsByMaxScoreDesc s.questions).take (jsTakeCount s.maxAnswers s.questions.length)

/-- Embedding of `countExamMaxScore`: the `max-score` attribute written on the
exam root. -/
def examMaxScore (e : ExamT) : Int :=
  countMaxScore ((examTopQuestionsPool e).map questionMaxScore) e.maxAnswers

mutual
/-- Spec-side: the sum of the `max-score` attributes of every leaf answer in a
question subtree. -/
def leafAnswerSumQ : QuestionT → Int
  | .mk _ _ answers children =>
    (answers.map (fun a => a.maxScore)).sum + leafAnswerSumList children

def leafAnswerSumList : List QuestionT → Int
  | [] => 0
  | q :: qs => leafAnswerSumQ q + leafAnswerSumList qs
end

/-- Spec-side: the sum of all leaf-answer max-scores of the whole exam. -/
def leafAnswerSumExam (e : ExamT) : Int :=
  (e.sections.map (fun s => leafAnswerSumList s.questions)).sum

mutual
/-- No `max-answers` attribute declared anywhere in a question subtree. -/
def noMaxAnswersQ : QuestionT → Bool
  | .mk ma _ _ children => ma = none && noMaxAnswersList children

def noMaxAnswersList : List QuestionT → Bool
  | [] => true
  | q :: qs => noMaxAnswersQ q && noMaxAnswersList qs
end

/-- No `max-answers` attribute declared anywhere in the exam. -/
def noMaxAnswersExam (e : ExamT) : Bool :=
  e.maxAnswers = none &&
    e.sections.all (fun s => s.maxAnswers = none && noMaxAnswersList s.questions)

mutual
/-- The shape invariant `parseQuestion` guarantees: a question with child
questions carries no direct answers (validation rejects a question containing
both answer elements and child questions). -/
def parsedShapeQ : QuestionT → Bool
  | .mk _ _ answers children =>
    (children.length = 0 || answers.length = 0) && parsedShapeList children

def parsedShapeList : List QuestionT → Bool
  | [] => true
  | q :: qs => parsedShapeQ q && parsedShapeList qs
end

/-- The shape invariant over the whole exam. -/
def parsedShapeExam (e : ExamT) : Bool :=
  e.sections.all (fun s => parsedShapeList s.questions)

/-! ## Section max/min answers (`countSectionMaxAndMinAnswers`) -/

/-- JavaScript truthiness of a number-or-null: `!examMaxAnswers` is true for
both `null` and `0`. -/
def jsTruthyNum : Option Int → Bool
  | none => false
  | some v => v ≠ 0

/-- lodash `_.clamp(n, lower, upper)`: the upper bound is applied first, then
the lower bound (so when `upper < lower`, `lower` wins). -/
def jsClamp (n lower upper : Int) : Int := max lower (min n upper)

/-- Embedding of `countSectionMaxAndMinAnswers`: returns unchanged when the
exam `max-answers` is falsy; otherwise first defaults each section's missing
`max-answers` to `Math.min(section.questions.length, examMaxAnswers)`, then
writes every section's `min-answers` as
`_.clamp(maxAnswers, 0, examMaxAnswers - otherSectionMaxAnswers)`, where the
other-section sum ranges over the already-defaulted sections (`s !== section`
compares element identity, i.e. position). -/
def countSectionMaxAndMinAnswers (e : ExamT) : ExamT :=
  if jsTruthyNum e.maxAnswers = false then e
  else
    let examMaxAnswers := e.maxAnswers.getD 0
    let defaulted := e.sections.map fun s =>
      if s.maxAnswers = none then
        { s with maxAnswers := some (min (s.questions.length : Int) examMaxAnswers) }
      else s
    let withMin := defaulted.enum.map fun p =>
      let otherSectionMaxAnswers :=
        ((defaulted.enum.filter (fun q => q.1 ≠ p.1)).map
          (fun q => q.2.maxAnswers.getD 0)).sum
      { p.2 with minAnswers := some (jsClamp (p.2.maxAnswers.getD 0) 0 (examMaxAnswers - otherSectionMaxAnswers)) }
    { e with sections := withMin }

/-! ## Display numbering (`addSectionNumbers`, `addQuestionNumbers`, `addAnswerNumbers`, `addAttachmentNumbers`) -/

/-- The `display-number` attributes written on sections: `String(i + 1)` in
document order. -/
def sectionDisplayNumbers (e : ExamT) : List String :=
  (List.range e.sections.length).map (fun i => toString (i + 1))

/-- A question subtree annotated with the `display-number` attributes
`addQuestionNumbers` writes. -/
inductive NumberedQuestion where
  | mk (displayNumber : String) (answerCount : Nat) (extMaterialAttachments : Nat)
      (children : List NumberedQuestion)

def NumberedQuestion.displayNumber : NumberedQuestion → String
  | .mk dn _ _ _ => dn

def NumberedQuestion.answerCount : NumberedQuestion → Nat
  | .mk _ n _ _ => n

def NumberedQuestion.extMaterialAttachments : NumberedQuestion → Nat
  | .mk _ _ n _ => n

def NumberedQuestion.children : NumberedQuestion → List NumberedQuestion
  | .mk _ _ _ c => c

mutual
/-- Embedding of `addQuestionNumber(question, index, prefix)`:
`displayNumber = (prefix ? prefix + "." : "") + (index + 1)`, recursing into
the child questions with the fresh number as their prefix. -/
def addQuestionNumber (q : QuestionT) (index : Nat) (pfx : String) : NumberedQuestion :=
  match q with
  | .mk _ ext answers children =>
    let displayNumber := (if pfx ≠ "" then pfx ++ "." else "") ++ toString (index + 1)
    .mk displayNumber answers.length ext (addQuestionNumberList children 0 displayNumber)

def addQuestionNumberList : List QuestionT → Nat → String → List NumberedQuestion
  | [], _, _ => []
  | q :: qs, i, pfx => addQuestionNumber q i pfx :: addQuestionNumberList qs (i + 1) pfx
end

/-- `addQuestionNumbers`: every top-level question is numbered with its index
and the empty prefix. -/
def addQuestionNumbers (topLevel : List QuestionT) : List NumberedQuestion :=
  addQuestionNumberList topLevel 0 ""

/-- Embedding of the body of `addAnswerNumber` for one question: a single
answer receives the question's own number, otherwise
`questionNumber + "." + (i + 1)`. -/
def answerDisplayNumbers (questionNumber : String) (answerCount : Nat) : List String :=
  (List.range answerCount).map fun i =>
    if answerCount = 1 then questionNumber else questionNumber ++ "." ++ toString (i + 1)

/-- The attachment lettering alphabet of the source
(`ABCDEFGHIJKLMNOPQRSTUVWXYZÅÄÖ`); JavaScript indexes it by UTF-16 unit, and
every letter is a single unit. -/
def alphabet : List Char := "ABCDEFGHIJKLMNOPQRSTUVWXYZÅÄÖ".data

/-- `alphabet[i]` as a JavaScript value: a one-letter string, or `undefined`
past the end. -/
def alphabetAt (i : Nat) : Option String :=
  (alphabet.get? i).map (fun c => String.singleton c)

/-- Exam-level external-material attachments
(`./external-material/attachment` under the root): the `display-number`
written on the i-th is `alphabet[i]` (none is written when the index runs past
the alphabet, since `attr(name, undefined)` does not set). -/
def examAttachmentDisplayNumbers (e : ExamT) : List (Option String) :=
  (List.range e.extMaterialAttachments).map alphabetAt

/-- Question-level external-material attachments: the i-th gets the template
literal of the question's `display-number`, a dot and `alphabet[i]`
(`String(undefined)` renders as the text `undefined`). -/
def questionAttachmentDisplayNumbers (questionDisplayNumber : String) (count : Nat) : List String :=
  (List.range count).map fun i =>
    questionDisplayNumber ++ "." ++ (alphabetAt i).getD "undefined"

/-! ## Answer max-score defaulting (`updateMaxScoresToAnswers`) -/

def scoredAnswerNames : List String := ["choice-answer", "dropdown-answer", "scored-text-answer"]

/-- A choice/dropdown/scored-text answer as `updateMaxScoresToAnswers` sees
it: the raw `max-score` attribute (an attribute either exists or not — its
value is a string), and the `score` attributes of its
`./choice-answer-option | ./dropdown-answer-option | ./accepted-answer`
children (read with `getNumericAttribute(score, option, 0)`). -/
structure ScorableAnswer where
  name : String
  maxScore : Option String := none
  optionScores : List (Option Int) := []
deriving DecidableEq

/-- lodash `_.max`: the maximum of a list, `undefined` on the empty list. -/
def lodashMax : List Int → Option Int
  | [] => none
  | x :: xs => some (xs.foldl max x)

/-- `String(v)` on a number-or-undefined: `String(undefined)` is the text
`undefined`. -/
def jsNumberString : Option Int → String
  | some n => toString n
  | none => "undefined"

/-- Embedding of the per-answer body of `updateMaxScoresToAnswers`: only
choice/dropdown/scored-text answers are touched; one lacking a `max-score`
attribute gets `String(_.max(scores))` with each option score defaulting
to 0. -/
def updateMaxScoresToAnswer (a : ScorableAnswer) : ScorableAnswer :=
  if a.name ∈ scoredAnswerNames then
    if a.maxScore = none then
      { a with
        maxScore := some (jsNumberString (lodashMax (a.optionScores.map (fun s => s.getD 0)))) }
    else a
  else a

/-- The whole pass over `exam.answers`. -/
def updateMaxScoresToAnswers (answers : List ScorableAnswer) : List ScorableAnswer :=
  answers.map updateMaxScoresToAnswer

/-! ## Question-id assignment and localization filtering (`addQuestionIds`, `applyLocalizations`)

`masterExamVersion` runs `addQuestionIds(root, generateId)` on the full,
unfiltered tree — visiting every answer of `parseExamStructure(root).answers`
in document order with the counter from `mkGenerateId` (which starts at 1 and
post-increments) — and only then `applyLocalizations(root, language, type)`.
For this pair of passes an answer is modelled by its position in the
unfiltered document order together with the localization-relevant attributes
(`lang`, `exam-type`) of itself and its ancestors: `applyLocalizations`
removes an element (and with it the answers below it) exactly when one of
those attributes rejects the target version, and removals never reorder the
surviving answers. -/

/-- The `lang` / `exam-type` attributes of one element on an answer's ancestor
chain (either a `localization` wrapper or any exam element carrying the
attributes). -/
structure LocAttrs where
  lang : Option String := none
  examType : Option String := none
deriving DecidableEq

/-- Character-list version of a starts-with test. -/
def leadsWith : List Char → List Char → Bool
  | [], _ => true
  | _ :: _, [] => false
  | a :: as, b :: bs => a = b && leadsWith as bs

/-- Character-list version of a substring test. -/
def occursIn (needle hay : List Char) : Bool :=
  match hay with
  | [] => needle.isEmpty
  | _ :: bs => leadsWith needle hay || occursIn needle bs

/-- `contains(@exam-type, type)` / `String.prototype.includes`: substring
test. -/
def substrOf (needle hay : String) : Bool := occursIn needle.data hay.data

/-- One element survives filtering for a version: its `lang` attribute
(defaulting to the version's language) must equal the language, and its
`exam-type` attribute (defaulting to the version's type) must contain the
type — `applyLocalizations` removes it otherwise. -/
def keepForVersion (language ty : String) (c : LocAttrs) : Bool :=
  (c.lang.getD language == language) && substrOf ty (c.examType.getD ty)

/-- An answer survives iff every element on its ancestor chain (and itself)
survives. -/
def answerSurvives (language ty : String) (cs : List LocAttrs) : Bool :=
  cs.all (keepForVersion language ty)

/-- An answer slot after `addQuestionIds`: its position in unfiltered document
order, its localization constraints, and the `question-id` attribute written
on it. -/
structure IdAnswer where
  position : Nat
  constraints : List LocAttrs
  questionId : Nat
deriving DecidableEq

/-- Embedding of `addQuestionIds` composed with `mkGenerateId`: the counter
starts at 1 and increments once per answer, in unfiltered document order.  A
document is the list of its answer slots (each with its ancestor-chain
attributes) in document order. -/
def addQuestionIdsPass (doc : List (List LocAttrs)) : List IdAnswer :=
  doc.enum.map fun p => ⟨p.1, p.2, p.1 + 1⟩

/-- Embedding of `applyLocalizations` at the answer level: answers whose
ancestor chain rejects the version disappear; the rest keep their attributes
and order. -/
def applyLocalizationsPass (language ty : String) (answers : List IdAnswer) : List IdAnswer :=
  answers.filter fun a => answerSurvives language ty a.constraints

/-- The id-relevant prefix of `masterExamVersion`: ids are assigned on the
unfiltered tree, then the version filter runs. -/
def masterVersionAnswerIds (doc : List (List LocAttrs)) (language ty : String) : List IdAnswer :=
  applyLocalizationsPass language ty (addQuestionIdsPass doc)

/-! ## Correct-answer redaction (`removeCorrectAnswers`, `removeHiddenElements`, `removeHvpMetadata`) -/

/-- A choice/dropdown option (or equally a dropdown option) as
`removeCorrectAnswers` sees it: its `score` attribute; `text` stands for the
remaining content. -/
structure OptR where
  score : Option Int := none
  text : String := ""
deriving DecidableEq

/-- An answer of `exam.answers` as `removeCorrectAnswers` sees it: its
element name, its options (for choice/dropdown) and the scores of its
`accepted-answer` children (for scored-text). -/
structure AnswerR where
  name : String
  options : List OptR := []
  acceptedAnswers : List Int := []
deriving DecidableEq

def dummyAnswerR : AnswerR := { name := "" }

/-- The choice/dropdown branch of `removeCorrectAnswers`: its XPath
`//e:choice-answer-option | //e:dropdown-answer-option` is rooted at the
document (`//`), so it strips the `score` attribute of every option in the
whole exam, not just of the answer being visited. -/
def clearAllOptionScores (answers : List AnswerR) : List AnswerR :=
  answers.map fun a => { a with options := a.options.map fun o => { o with score := none } }

/-- The scored-text branch: `.//e:accepted-answer` is relative, so only the
visited answer loses its accepted answers. -/
def removeAcceptedAnswersAt (answers : List AnswerR) (i : Nat) : List AnswerR :=
  answers.mapIdx fun j a => if j = i then { a with acceptedAnswers := [] } else a

/-- One iteration of the `for (const { element } of exam.answers)` loop of
`removeCorrectAnswers`, dispatching on the element name. -/
def removeCorrectAnswersStep (answers : List AnswerR) (i : Nat) : List AnswerR :=
  let name := (answers.getD i dummyAnswerR).name
  if name ∈ choiceAnswerTypes then clearAllOptionScores answers
  else if name = "scored-text-answer" then removeAcceptedAnswersAt answers i
  else answers

/-- The whole `removeCorrectAnswers(exam)` pass (the loop never changes
element names or the number of answers, so iterating by position is the
iteration over the original `exam.answers` array). -/
def removeCorrectAnswersPass (answers : List AnswerR) : List AnswerR :=
  (List.range answers.length).foldl removeCorrectAnswersStep answers

/-- The redaction guard of `masterExamVersion` restricted to the answers:
`if (options.removeCorrectAnswers) removeCorrectAnswers(exam)`. -/
def maybeRemoveCorrectAnswers (opts : Option MasteringOptionsJs) (answers : List AnswerR) : List AnswerR :=
  if jsTruthyBool (effectiveRemoveCorrectAnswersValue opts) then removeCorrectAnswersPass answers
  else answers

/-- A document element for the element-level redaction passes: its name and
its `hidden` attribute. -/
structure DocElement where
  name : String
  hidden : Option String := none
deriving DecidableEq

/-- Embedding of `removeHiddenElements`: the XPath `//e:*[@hidden=true()]`
compares a node-set against a boolean, so it selects every element that has a
`hidden` attribute at all (whatever its value); those elements are removed. -/
def removeHiddenElements (doc : List DocElement) : List DocElement :=
  doc.filter fun el => el.hidden = none

def hvpMetadataNames : List String :=
  ["exam-grading-instruction", "question-grading-instruction", "answer-grading-instruction",
   "audio-transcription"]

/-- Embedding of `removeHvpMetadata`: every grading-instruction and
audio-transcription element of the document is removed. -/
def removeHvpMetadata (doc : List DocElement) : List DocElement :=
  doc.filter fun el => el.name ∉ hvpMetadataNames

/-- The element-level part of the redaction guard of `masterExamVersion`:
`if (options.removeCorrectAnswers) { ... removeHiddenElements(root); removeHvpMetadata(root) }`
(the `removeCorrectAnswers(exam)` part of the same block acts on answers and
is modelled by `maybeRemoveCorrectAnswers`). -/
def applyRedactionPasses (opts : Option MasteringOptionsJs) (doc : List DocElement) : List DocElement :=
  if jsTruthyBool (effectiveRemoveCorrectAnswersValue opts) then
    removeHvpMetadata (removeHiddenElements doc)
  else doc

/-! ## Default elements and concrete documents used by the theorems below -/

def dummySection : SectionT := {}

def dummyQuestionT : QuestionT := .mk none 0 [] []

def dummyNumberedQuestion : NumberedQuestion := .mk "" 0 0 []

def dummyIdAnswer : IdAnswer := ⟨0, [], 0⟩

/-- A minimal exam fragment: one choice answer (question-id 1, as the counter
assigns to the first answer of a document) with three options in authored
order a, b, c. -/
def c1Answer : ChAnswer :=
  { name := "choice-answer", questionId := "1",
    options := [{ text := "a" }, { text := "b" }, { text := "c" }] }

/-- The scenario of the claim: exam-code A, date 2020-01-01, no day-code, two
versions fi-FI and sv-FI of exam-type normal. -/
def c2Source : ExamSource :=
  { examCode := some "A", date := some "2020-01-01",
    versions := [{ lang := "fi-FI" }, { lang := "sv-FI" }] }

/-- The same scenario with a day-code added (exam-code A requires one). -/
def c2SourceWithDayCode : ExamSource := { c2Source with dayCode := some "1" }

/-- A dropdown answer with a no-answer option in the middle. -/
def c3WitnessAnswer : ChAnswer :=
  { name := "dropdown-answer", questionId := "7",
    options := [{ text := "x" }, { typ := some "no-answer", text := "y" }, { text := "z" }] }

/-- An exam with no max-answers declared anywhere: one section, one leaf
question with two answers and one branch question with two leaf children. -/
def c4WitnessExam : ExamT :=
  { sections :=
    [ { questions :=
        [ QuestionT.mk none 0 [⟨2⟩, ⟨3⟩] [],
          QuestionT.mk none 0 [] [QuestionT.mk none 0 [⟨4⟩] [], QuestionT.mk none 0 [⟨1⟩] []] ] } ] }

/-- A section declaring max-answers 1 over two questions. -/
def c4WitnessSection : SectionT :=
  { maxAnswers := some 1,
    questions := [QuestionT.mk none 0 [⟨2⟩] [], QuestionT.mk none 0 [⟨5⟩] []] }

/-- A choice answer without a max-score attribute and without any options. -/
def c5Answer : ScorableAnswer := { name := "choice-answer" }

/-- A dropdown answer without a max-score attribute whose options carry the
scores 2, (missing) and -1. -/
def c5WitnessAnswer : ScorableAnswer :=
  { name := "dropdown-answer", optionScores := [some 2, none, some (-1)] }

/-- An exam declaring max-answers 0 with one section lacking its own
max-answers. -/
def c6Exam : ExamT :=
  { maxAnswers := some 0, sections := [{ questions := [QuestionT.mk none 0 [⟨1⟩] []] }] }

/-- An exam declaring max-answers 2, a section without its own limit and a
section declaring 1. -/
def c6WitnessExam : ExamT :=
  { maxAnswers := some 2,
    sections :=
      [ { questions := [QuestionT.mk none 0 [⟨1⟩] [], QuestionT.mk none 0 [⟨2⟩] []] },
        { maxAnswers := some 1, questions := [QuestionT.mk none 0 [⟨3⟩] []] } ] }

/-- A document with three answers: one only in the fi-FI version, one in all
versions, one only in the sv-FI version. -/
def c7Doc : List (List LocAttrs) :=
  [[{ lang := some "fi-FI" }], [], [{ lang := some "sv-FI" }]]

/-- A branch question with two leaf children (the first with two answers and
one external-material attachment, the second with one answer). -/
def c8WitnessQuestion : QuestionT :=
  QuestionT.mk none 2 []
    [QuestionT.mk none 1 [⟨0⟩, ⟨0⟩] [], QuestionT.mk none 0 [⟨0⟩] []]

/-- Answers for the redaction pass: a choice answer with a scored and an
unscored option, a scored-text answer with one accepted answer, and a text
answer. -/
def c9Answers : List AnswerR :=
  [ { name := "choice-answer", options := [{ score := some 3, text := "a" }, { text := "b" }] },
    { name := "scored-text-answer", acceptedAnswers := [2] },
    { name := "text-answer" } ]

/-- A document with a plain element, a hidden element, grading-instruction
and audio-transcription elements, and an element with `hidden=false`. -/
def c10Doc : List DocElement :=
  [ { name := "section" }, { name := "question", hidden := some "true" },
    { name := "question-grading-instruction" }, { name := "audio-transcription" },
    { name := "image", hidden := some "false" } ]

/-- Spec-side (C6): the max-answers a section ends up with when the exam
declares `examMax`: its own declared value, else
`min(questionCount, examMax)`. -/
def sectionDefaultedMaxAnswers (examMax : Int) (s : SectionT) : Int :=
  match s.maxAnswers with
  | some v => v
  | none => min (s.questions.length : Int) examMax

set_option maxRecDepth 1000000

/-! ## Theorems -/

/-- C1 (counterexample): with no options passed to `masterExam` at all, the
default shuffle secret applies and the authored option order a, b, c of a
choice answer is changed to b, c, a — the mastered document does not
preserve the authored order. -/
theorem c1_absent_option_still_shuffles :
    (masteredChoiceAnswers none [c1Answer]).map (fun a => a.options.map (fun o => o.text)) =
      [["b", "c", "a"]] ∧
    c1Answer.options.map (fun o => o.text) = ["a", "b", "c"] := by
  exact ⟨by decide, by decide⟩

/-- C1 (amended): omitting `multiChoiceShuffleSecret` does not disable
shuffling — the built-in default secret applies exactly as when no options
are passed at all; shuffling is disabled only by explicitly passing the
option with value `undefined`, in which case every answer keeps its authored
option order. -/
theorem c1_explicit_undefined_disables_shuffling :
    (∀ (o : MasteringOptionsJs) (answers : List ChAnswer),
        o.multiChoiceShuffleSecret = JsField.undef →
        masteredChoiceAnswers (some o) answers = answers) ∧
    (∀ (o : MasteringOptionsJs) (answers : List ChAnswer),
        o.multiChoiceShuffleSecret = JsField.absent →
        masteredChoiceAnswers (some o) answers = masteredChoiceAnswers none answers) := by
  constructor
  · intro o answers h
    simp [masteredChoiceAnswers, effectiveShuffleSecret, h, jsTruthyStr]
  · intro o answers h
    simp [masteredChoiceAnswers, effectiveShuffleSecret, h]

/-- Witness for the amended C1 theorem at a concrete options object and
document. -/
theorem c1_explicit_undefined_disables_shuffling_witness :
    (⟨JsField.undef, JsField.absent⟩ : MasteringOptionsJs).multiChoiceShuffleSecret = JsField.undef ∧
    masteredChoiceAnswers (some ⟨JsField.undef, JsField.absent⟩) [c1Answer] = [c1Answer] :=
  ⟨rfl, c1_explicit_undefined_disables_shuffling.1 ⟨JsField.undef, JsField.absent⟩ [c1Answer] rfl⟩

/-- C2 (counterexample): the claimed scenario — exam-code A, date 2020-01-01,
no day-code — does not validate: exam-code A requires a day-code, so
`masterExam` rejects the source before calling `generateUuid` at all, never
making the two claimed calls. -/
theorem c2_day_code_missing_fails_validation :
    masterExamUuidCalls c2Source = Except.error "Invalid empty day-code for exam-code A" := by
  rfl

/-- C2 (amended): for the scenario with a day-code added (exam-code A
requires one), `masterExam` calls `generateUuid` exactly twice, once per
version, with metadata carrying exam-code A, date 2020-01-01 and exam-type
normal in both calls and the respective language of each version. -/
theorem c2_with_day_code_two_uuid_calls :
    masterExamUuidCalls c2SourceWithDayCode =
      Except.ok [some ⟨"A", "2020-01-01", "fi-FI", "normal"⟩,
                 some ⟨"A", "2020-01-01", "sv-FI", "normal"⟩] := by
  rfl

/-- lodash `_.max` agrees with `List.max?`. -/
theorem lodashMax_eq_max? : ∀ l : List Int, lodashMax l = l.max?
  | [] => rfl
  | _ :: _ => rfl

/-- C5 (counterexample): a choice answer with no declared max-score and no
options gets its `max-score` attribute set to the string `undefined`
(`String(_.max([]))`), not to 0. -/
theorem c5_no_options_yields_undefined_string :
    c5Answer.maxScore = none ∧ c5Answer.optionScores = [] ∧
    (updateMaxScoresToAnswer c5Answer).maxScore = some "undefined" :=
  ⟨rfl, rfl, rfl⟩

/-- C5 (amended): for choice/dropdown/scored-text answers lacking a declared
max-score, the phase sets the attribute to the maximum score among the
options/accepted-answers, an option without a score counting as 0 — except
that with no options at all the written value is the string `undefined`
(lodash `_.max` of an empty list), not 0; answers with a declared max-score,
and answers of other kinds, are unchanged. -/
theorem c5_max_score_defaulting (a : ScorableAnswer) :
    (a.name ∈ scoredAnswerNames → a.maxScore = none →
      (updateMaxScoresToAnswer a).maxScore =
        some (jsNumberString ((a.optionScores.map (fun s => s.getD 0)).max?))) ∧
    (a.name ∈ scoredAnswerNames → a.maxScore = none → a.optionScores = [] →
      (updateMaxScoresToAnswer a).maxScore = some "undefined") ∧
    (a.maxScore ≠ none → updateMaxScoresToAnswer a = a) ∧
    (a.name ∉ scoredAnswerNames → updateMaxScoresToAnswer a = a) := by
  refine ⟨fun hn hm => ?_, fun hn hm ho => ?_, fun hm => ?_, fun hn => ?_⟩
  · simp [updateMaxScoresToAnswer, hn, hm, lodashMax_eq_max?]
  · simp [updateMaxScoresToAnswer, hn, hm, ho, lodashMax, jsNumberString]
  · cases h : a.maxScore with
    | none => exact absurd h hm
    | some v => by_cases hn : a.name ∈ scoredAnswerNames <;> simp [updateMaxScoresToAnswer, hn, h]
  · simp [updateMaxScoresToAnswer, hn]

/-- Witness for the amended C5 theorem: a dropdown answer with scores 2,
missing and -1 gets max-score 2. -/
theorem c5_max_score_defaulting_witness :
    c5WitnessAnswer.name ∈ scoredAnswerNames ∧ c5WitnessAnswer.maxScore = none ∧
    (updateMaxScoresToAnswer c5WitnessAnswer).maxScore =
      some (jsNumberString ((c5WitnessAnswer.optionScores.map (fun s => s.getD 0)).max?)) :=
  ⟨by decide, rfl, (c5_max_score_defaulting c5WitnessAnswer).1 (by decide) rfl⟩

/-- C10: the single `removeCorrectAnswers` option also drives the
hidden-element and metadata removals: when its merged value is truthy the
pipeline runs exactly `removeHvpMetadata ∘ removeHiddenElements`, after which
no surviving element is flagged hidden and no grading-instruction or
audio-transcription element survives; when it is falsy, none of these
removals happen — there is no separate redaction mode. -/
theorem c10_single_redaction_flag (opts : Option MasteringOptionsJs) (doc : List DocElement) :
    (jsTruthyBool (effectiveRemoveCorrectAnswersValue opts) = true →
      applyRedactionPasses opts doc = removeHvpMetadata (removeHiddenElements doc) ∧
      ∀ el ∈ applyRedactionPasses opts doc,
        el.hidden ≠ some "true" ∧ el.name ∉ hvpMetadataNames) ∧
    (jsTruthyBool (effectiveRemoveCorrectAnswersValue opts) = false →
      applyRedactionPasses opts doc = doc) := by
  constructor
  · intro h
    constructor
    · simp [applyRedactionPasses, h]
    · intro el hel
      rw [applyRedactionPasses, h] at hel
      simp only [if_true] at hel
      rw [removeHvpMetadata] at hel
      have h1 := List.of_mem_filter hel
      have h2 := List.mem_of_mem_filter hel
      rw [removeHiddenElements] at h2
      have h3 := List.of_mem_filter h2
      constructor
      · simp only [decide_eq_true_eq] at h3
        rw [h3]
        simp
      · simpa using h1
  · intro h
    simp [applyRedactionPasses, h]

/-- Witness for C10 at the default options (absent, hence truthy) and a
concrete document. -/
theorem c10_single_redaction_flag_witness :
    jsTruthyBool (effectiveRemoveCorrectAnswersValue none) = true ∧
    applyRedactionPasses none c10Doc = removeHvpMetadata (removeHiddenElements c10Doc) :=
  ⟨rfl, ((c10_single_redaction_flag none c10Doc).1 rfl).1⟩

/-- `List.enum` written as a map over positions (any default inside range). -/
theorem enum_eq_range_map {α : Type} (l : List α) (d : α) :
    l.enum = (List.range l.length).map (fun i => (i, l.getD i d)) := by
  apply List.ext_getElem
  · simp [List.enum_length]
  · intro i h1 h2
    rw [List.getElem_enum]
    rw [List.getElem_map, List.getElem_range,
      List.getD_eq_getElem l d (by simpa [List.enum_length] using h1)]

/-- Mapping a position-indexed function over a range equals mapping over the
list itself. -/
theorem range_map_getD {α β : Type} (l : List α) (f : α → β) (d : α) :
    (List.range l.length).map (fun j => f (l.getD j d)) = l.map f := by
  apply List.ext_getElem
  · simp
  · intro i h1 h2
    simp only [List.getElem_map, List.getElem_range]
    rw [List.getD_eq_getElem l d (by simpa using h2)]

/-- Summing a position-indexed value over all positions except one. -/
theorem range_filter_ne_sum (g : Nat → Int) :
    ∀ n i : Nat, i < n →
      (((List.range n).filter (fun j => j ≠ i)).map g).sum = ((List.range n).map g).sum - g i := by
  intro n
  induction n with
  | zero => intro i hi; omega
  | succ n ih =>
    intro i hi
    rw [List.range_succ, List.filter_append, List.map_append, List.sum_append,
      List.map_append, List.sum_append]
    by_cases hin : i = n
    · subst hin
      have hfilter : (List.range i).filter (fun j => j ≠ i) = List.range i := by
        apply List.filter_eq_self.mpr
        intro j hj
        simp only [decide_eq_true_eq]
        exact Nat.ne_of_lt (List.mem_range.mp hj)
      rw [hfilter]
      simp
    · have hi' : i < n := by omega
      have hne : n ≠ i := fun h => hin h.symm
      have hsingle : ([n].filter (fun j => j ≠ i)) = [n] := by
        simp [List.filter, hne]
      rw [hsingle, ih i hi']
      simp
      ring

/-- C6 (counterexample): an exam declaring max-answers 0 declares a
max-answers limit, yet the pass writes nothing — the section keeps no
max-answers and gets no min-answers, because `if (!examMaxAnswers) return`
treats the declared 0 as absent. -/
theorem c6_zero_max_answers_writes_nothing :
    c6Exam.maxAnswers = some 0 ∧
    (countSectionMaxAndMinAnswers c6Exam).sections.map (fun s => (s.maxAnswers, s.minAnswers)) =
      [(none, none)] :=
  ⟨rfl, rfl⟩


/-- `getD` through a `map`, for positions in range. -/
theorem getD_map {α β : Type} (f : α → β) (l : List α) (i : Nat) (hi : i < l.length)
    (da : α) (db : β) : (l.map f).getD i db = f (l.getD i da) := by
  rw [List.getD_eq_getElem _ db (by simpa using hi), List.getElem_map,
    List.getD_eq_getElem l da hi]

/-- `getD` through `enum`, for positions in range. -/
theorem getD_enum {α : Type} (l : List α) (i : Nat) (hi : i < l.length)
    (d : Nat × α) (da : α) : l.enum.getD i d = (i, l.getD i da) := by
  rw [List.getD_eq_getElem _ d (by simpa [List.enum_length] using hi), List.getElem_enum,
    List.getD_eq_getElem l da hi]

/-- C6 (amended): if and only if the exam declares a nonzero max-answers
limit `m`: every section lacking a declared max-answers gets
`min(questionCount, m)`, and every section's min-answers becomes
`clamp(sectionMax, 0, m - sumOfOtherSectionsMax)`; when the exam max-answers
is absent — or declared as 0, which the code's falsiness check treats the
same — nothing is written. -/
theorem c6_section_answer_budget (e : ExamT) :
    (jsTruthyNum e.maxAnswers = false → countSectionMaxAndMinAnswers e = e) ∧
    (∀ m : Int, e.maxAnswers = some m → m ≠ 0 →
      ∀ i, i < e.sections.length →
        let totals := e.sections.map (sectionDefaultedMaxAnswers m)
        ((countSectionMaxAndMinAnswers e).sections.getD i dummySection).maxAnswers =
          some (totals.getD i 0) ∧
        ((countSectionMaxAndMinAnswers e).sections.getD i dummySection).minAnswers =
          some (jsClamp (totals.getD i 0) 0 (m - (totals.sum - totals.getD i 0)))) := by
  constructor
  · intro h
    simp [countSectionMaxAndMinAnswers, h]
  · intro m hm hm0 i hi
    intro totals
    have htruthy : jsTruthyNum e.maxAnswers = true := by simp [jsTruthyNum, hm, hm0]
    have hres : (countSectionMaxAndMinAnswers e).sections =
        (e.sections.map (fun s =>
          if s.maxAnswers = none then
            { s with maxAnswers := some (min (s.questions.length : Int) m) }
          else s)).enum.map (fun p =>
            { p.2 with minAnswers := some (jsClamp (p.2.maxAnswers.getD 0) 0
              (m - (((e.sections.map (fun s =>
                if s.maxAnswers = none then
                  { s with maxAnswers := some (min (s.questions.length : Int) m) }
                else s)).enum.filter (fun q => q.1 ≠ p.1)).map
                  (fun q => q.2.maxAnswers.getD 0)).sum)) }) := by
      rw [countSectionMaxAndMinAnswers, if_neg (by simp [htruthy])]
      simp only [hm, Option.getD_some]
    have hdfltMax : ∀ s : SectionT,
        (if s.maxAnswers = none then
          { s with maxAnswers := some (min (s.questions.length : Int) m) }
         else s).maxAnswers = some (sectionDefaultedMaxAnswers m s) := by
      intro s
      cases hs : s.maxAnswers <;> simp [hs, sectionDefaultedMaxAnswers]
    have hDlen : (e.sections.map (fun s =>
        if s.maxAnswers = none then
          { s with maxAnswers := some (min (s.questions.length : Int) m) }
        else s)).length = e.sections.length := by simp
    have hDget : ∀ j, j < e.sections.length →
        (e.sections.map (fun s =>
          if s.maxAnswers = none then
            { s with maxAnswers := some (min (s.questions.length : Int) m) }
          else s)).getD j dummySection =
        (if (e.sections.getD j dummySection).maxAnswers = none then
          { e.sections.getD j dummySection with
            maxAnswers := some (min ((e.sections.getD j dummySection).questions.length : Int) m) }
         else e.sections.getD j dummySection) := by
      intro j hj
      exact getD_map _ e.sections j hj dummySection dummySection
    have htotget : ∀ j, j < e.sections.length →
        totals.getD j 0 = sectionDefaultedMaxAnswers m (e.sections.getD j dummySection) := by
      intro j hj
      exact getD_map _ e.sections j hj dummySection 0
    have hDmax : ∀ j, j < e.sections.length →
        ((e.sections.map (fun s =>
          if s.maxAnswers = none then
            { s with maxAnswers := some (min (s.questions.length : Int) m) }
          else s)).getD j dummySection).maxAnswers = some (totals.getD j 0) := by
      intro j hj
      rw [hDget j hj, hdfltMax, htotget j hj]
    have hsum : (((e.sections.map (fun s =>
          if s.maxAnswers = none then
            { s with maxAnswers := some (min (s.questions.length : Int) m) }
          else s)).enum.filter (fun q => q.1 ≠ i)).map
            (fun q => q.2.maxAnswers.getD 0)).sum = totals.sum - totals.getD i 0 := by
      rw [enum_eq_range_map (e.sections.map (fun s =>
          if s.maxAnswers = none then
            { s with maxAnswers := some (min (s.questions.length : Int) m) }
          else s)) dummySection, List.filter_map, List.map_map, hDlen]
      have hrange : ((List.range e.sections.length).filter
            ((fun q : Nat × SectionT => decide (q.1 ≠ i)) ∘
              (fun j => (j, (e.sections.map (fun s =>
                if s.maxAnswers = none then
                  { s with maxAnswers := some (min (s.questions.length : Int) m) }
                else s)).getD j dummySection)))) =
          (List.range e.sections.length).filter (fun j => j ≠ i) := rfl
      rw [hrange]
      have hmapfn : ((fun q : Nat × SectionT => q.2.maxAnswers.getD 0) ∘
            (fun j => (j, (e.sections.map (fun s =>
              if s.maxAnswers = none then
                { s with maxAnswers := some (min (s.questions.length : Int) m) }
              else s)).getD j dummySection))) =
          fun j => ((e.sections.map (fun s =>
            if s.maxAnswers = none then
              { s with maxAnswers := some (min (s.questions.length : Int) m) }
            else s)).getD j dummySection).maxAnswers.getD 0 := rfl
      rw [hmapfn, range_filter_ne_sum _ e.sections.length i hi]
      have hvals : (List.range e.sections.length).map (fun j =>
          ((e.sections.map (fun s =>
            if s.maxAnswers = none then
              { s with maxAnswers := some (min (s.questions.length : Int) m) }
            else s)).getD j dummySection).maxAnswers.getD 0) = totals := by
        apply List.ext_getElem
        · simp [totals]
        · intro j h1 h2
          have hj : j < e.sections.length := by simpa using h1
          rw [List.getElem_map, List.getElem_range]
          have := hDmax j hj
          rw [this]
          simp only [Option.getD_some]
          rw [List.getD_eq_getElem totals 0 (by simpa [totals] using hj)]
      have hgi : ((e.sections.map (fun s =>
          if s.maxAnswers = none then
            { s with maxAnswers := some (min (s.questions.length : Int) m) }
          else s)).getD i dummySection).maxAnswers.getD 0 = totals.getD i 0 := by
        rw [hDmax i hi]
        rfl
      rw [hvals, hgi]
    have hwithMin : ((countSectionMaxAndMinAnswers e).sections).getD i dummySection =
        { (e.sections.map (fun s =>
            if s.maxAnswers = none then
              { s with maxAnswers := some (min (s.questions.length : Int) m) }
            else s)).getD i dummySection with
          minAnswers := some (jsClamp
            (((e.sections.map (fun s =>
              if s.maxAnswers = none then
                { s with maxAnswers := some (min (s.questions.length : Int) m) }
              else s)).getD i dummySection).maxAnswers.getD 0) 0
            (m - (((e.sections.map (fun s =>
              if s.maxAnswers = none then
                { s with maxAnswers := some (min (s.questions.length : Int) m) }
              else s)).enum.filter (fun q => q.1 ≠ i)).map
                (fun q => q.2.maxAnswers.getD 0)).sum)) } := by
      rw [hres]
      have hiD : i < (e.sections.map (fun s =>
          if s.maxAnswers = none then
            { s with maxAnswers := some (min (s.questions.length : Int) m) }
          else s)).length := by simpa using hi
      rw [getD_map _ _ i (by simpa [List.enum_length] using hiD) (0, dummySection) dummySection,
        getD_enum _ i hiD (0, dummySection) dummySection]
    constructor
    · rw [hwithMin]
      exact hDmax i hi
    · rw [hwithMin]
      have := hDmax i hi
      simp only [hsum, this, Option.getD_some]

/-- Witness for the amended C6 theorem: exam max-answers 2, first section
undeclared (defaults to 2), second declares 1; the first section's
min-answers becomes clamp(2, 0, 2 - 1) = 1. -/
theorem c6_section_answer_budget_witness :
    c6WitnessExam.maxAnswers = some 2 ∧ (2 : Int) ≠ 0 ∧ 0 < c6WitnessExam.sections.length ∧
    ((countSectionMaxAndMinAnswers c6WitnessExam).sections.getD 0 dummySection).minAnswers =
      some (jsClamp ((c6WitnessExam.sections.map (sectionDefaultedMaxAnswers 2)).getD 0 0) 0
        (2 - ((c6WitnessExam.sections.map (sectionDefaultedMaxAnswers 2)).sum -
          (c6WitnessExam.sections.map (sectionDefaultedMaxAnswers 2)).getD 0 0))) :=
  ⟨rfl, by decide, by decide,
    ((c6_section_answer_budget c6WitnessExam).2 2 rfl (by decide) 0 (by decide)).2⟩

/-- Every answer slot annotated by `addQuestionIdsPass` carries the id
`position + 1`. -/
theorem addQuestionIdsPass_id (doc : List (List LocAttrs)) (a : IdAnswer)
    (ha : a ∈ addQuestionIdsPass doc) : a.questionId = a.position + 1 := by
  rw [addQuestionIdsPass] at ha
  obtain ⟨p, hp, rfl⟩ := List.mem_map.mp ha
  rfl

/-- C7: question-ids are the values 1, 2, … assigned in unfiltered document
order (the counter starts at 1 and increments once per answer, before
localization filtering), so an answer surviving in two different versions —
whatever their languages and exam-types — carries the same question-id in
both. -/
theorem c7_question_id_stability :
    (∀ doc : List (List LocAttrs),
        (addQuestionIdsPass doc).map (fun a => a.questionId) = List.range' 1 doc.length) ∧
    (∀ (doc : List (List LocAttrs)) (l1 t1 l2 t2 : String) (a b : IdAnswer),
        a ∈ masterVersionAnswerIds doc l1 t1 →
        b ∈ masterVersionAnswerIds doc l2 t2 →
        a.position = b.position → a.questionId = b.questionId) := by
  constructor
  · intro doc
    rw [addQuestionIdsPass, List.map_map, enum_eq_range_map doc [], List.map_map,
      List.range'_eq_map_range]
    exact List.map_congr_left (fun j _ => by simp [Nat.add_comm])
  · intro doc l1 t1 l2 t2 a b ha hb hpos
    rw [masterVersionAnswerIds, applyLocalizationsPass] at ha hb
    have ha' := addQuestionIdsPass_id doc a (List.mem_of_mem_filter ha)
    have hb' := addQuestionIdsPass_id doc b (List.mem_of_mem_filter hb)
    rw [ha', hb', hpos]

/-- Witness for C7: in a document with a fi-FI-only answer, an unconstrained
answer and a sv-FI-only answer, the unconstrained answer (position 1) keeps
question-id 2 in both the fi-FI and the sv-FI version. -/
theorem c7_question_id_stability_witness :
    (⟨1, [], 2⟩ : IdAnswer) ∈ masterVersionAnswerIds c7Doc "fi-FI" "normal" ∧
    (⟨1, [], 2⟩ : IdAnswer) ∈ masterVersionAnswerIds c7Doc "sv-FI" "normal" ∧
    (⟨1, [], 2⟩ : IdAnswer).questionId = (⟨1, [], 2⟩ : IdAnswer).questionId :=
  ⟨by decide, by decide,
    c7_question_id_stability.2 c7Doc "fi-FI" "normal" "sv-FI" "normal" ⟨1, [], 2⟩ ⟨1, [], 2⟩
      (by decide) (by decide) rfl⟩

/-- `getD` through `clearAllOptionScores`: every position (also out of range,
where both sides give the dummy) ends up with its option scores stripped. -/
theorem clearAllOptionScores_getD (l : List AnswerR) (j : Nat) :
    (clearAllOptionScores l).getD j dummyAnswerR =
      { l.getD j dummyAnswerR with
        options := (l.getD j dummyAnswerR).options.map (fun o => { o with score := none }) } := by
  by_cases hj : j < l.length
  · exact getD_map _ l j hj dummyAnswerR dummyAnswerR
  · rw [List.getD_eq_default _ _ (by simpa [clearAllOptionScores] using Nat.le_of_not_lt hj),
      List.getD_eq_default _ _ (Nat.le_of_not_lt hj)]
    rfl

/-- `getD` through `removeAcceptedAnswersAt`: position `i` loses its accepted
answers, all others are untouched. -/
theorem removeAcceptedAnswersAt_getD (l : List AnswerR) (i j : Nat) :
    (removeAcceptedAnswersAt l i).getD j dummyAnswerR =
      (if j = i then { l.getD j dummyAnswerR with acceptedAnswers := [] }
       else l.getD j dummyAnswerR) := by
  by_cases hj : j < l.length
  · rw [removeAcceptedAnswersAt, List.mapIdx_eq_enum_map,
      getD_map _ l.enum j (by simpa [List.enum_length] using hj) (0, dummyAnswerR) dummyAnswerR,
      getD_enum l j hj (0, dummyAnswerR) dummyAnswerR]
    rfl
  · rw [List.getD_eq_default _ _
        (by simpa [removeAcceptedAnswersAt, List.mapIdx_eq_enum_map, List.enum_length]
          using Nat.le_of_not_lt hj),
      List.getD_eq_default _ _ (Nat.le_of_not_lt hj)]
    by_cases hji : j = i
    · rw [if_pos hji]
      rfl
    · rw [if_neg hji]

/-- One redaction step characterised position by position. -/
theorem removeCorrectAnswersStep_getD (l : List AnswerR) (i j : Nat) :
    (removeCorrectAnswersStep l i).getD j dummyAnswerR =
      (if (l.getD i dummyAnswerR).name ∈ choiceAnswerTypes then
        { l.getD j dummyAnswerR with
          options := (l.getD j dummyAnswerR).options.map (fun o => { o with score := none }) }
       else if (l.getD i dummyAnswerR).name = "scored-text-answer" then
        (if j = i then { l.getD j dummyAnswerR with acceptedAnswers := [] }
         else l.getD j dummyAnswerR)
       else l.getD j dummyAnswerR) := by
  rw [removeCorrectAnswersStep]
  by_cases h1 : (l.getD i dummyAnswerR).name ∈ choiceAnswerTypes
  · simp only [h1, if_true]
    exact clearAllOptionScores_getD l j
  · by_cases h2 : (l.getD i dummyAnswerR).name = "scored-text-answer"
    · simp only [h1, h2, if_false, if_true]
      exact removeAcceptedAnswersAt_getD l i j
    · simp only [h1, h2, if_false]

/-- A redaction step never changes an answer's element name. -/
theorem removeCorrectAnswersStep_name (l : List AnswerR) (i j : Nat) :
    ((removeCorrectAnswersStep l i).getD j dummyAnswerR).name = (l.getD j dummyAnswerR).name := by
  rw [removeCorrectAnswersStep_getD]
  by_cases h1 : (l.getD i dummyAnswerR).name ∈ choiceAnswerTypes
  · rw [if_pos h1]
  · by_cases h2 : (l.getD i dummyAnswerR).name = "scored-text-answer"
    · rw [if_neg h1, if_pos h2]
      by_cases hji : j = i
      · rw [if_pos hji]
      · rw [if_neg hji]
    · rw [if_neg h1, if_neg h2]

/-- After visiting position `i`, the redaction goal holds there: a
choice/dropdown answer has no scored option left and a scored-text answer has
no accepted answers left. -/
theorem removeCorrectAnswersStep_establishes (l : List AnswerR) (i : Nat) :
    (((removeCorrectAnswersStep l i).getD i dummyAnswerR).name ∈ choiceAnswerTypes →
      ∀ o ∈ ((removeCorrectAnswersStep l i).getD i dummyAnswerR).options, o.score = none) ∧
    (((removeCorrectAnswersStep l i).getD i dummyAnswerR).name = "scored-text-answer" →
      ((removeCorrectAnswersStep l i).getD i dummyAnswerR).acceptedAnswers = []) := by
  rw [removeCorrectAnswersStep_getD]
  by_cases h1 : (l.getD i dummyAnswerR).name ∈ choiceAnswerTypes
  · rw [if_pos h1]
    constructor
    · intro _ o ho
      obtain ⟨o2, _, rfl⟩ := List.mem_map.mp ho
      rfl
    · intro habs
      have habs2 : (l.getD i dummyAnswerR).name = "scored-text-answer" := habs
      rw [habs2] at h1
      exact absurd h1 (by decide)
  · by_cases h2 : (l.getD i dummyAnswerR).name = "scored-text-answer"
    · rw [if_neg h1, if_pos h2, if_pos rfl]
      constructor
      · intro habs
        have habs2 : (l.getD i dummyAnswerR).name ∈ choiceAnswerTypes := habs
        exact absurd habs2 h1
      · intro _
        rfl
    · rw [if_neg h1, if_neg h2]
      constructor
      · intro hc
        exact absurd hc h1
      · intro hs
        exact absurd hs h2

/-- A redaction step preserves the redaction goal at every position. -/
theorem removeCorrectAnswersStep_preserves (l : List AnswerR) (i j : Nat)
    (hopts : (l.getD j dummyAnswerR).name ∈ choiceAnswerTypes →
      ∀ o ∈ (l.getD j dummyAnswerR).options, o.score = none)
    (hacc : (l.getD j dummyAnswerR).name = "scored-text-answer" →
      (l.getD j dummyAnswerR).acceptedAnswers = []) :
    (((removeCorrectAnswersStep l i).getD j dummyAnswerR).name ∈ choiceAnswerTypes →
      ∀ o ∈ ((removeCorrectAnswersStep l i).getD j dummyAnswerR).options, o.score = none) ∧
    (((removeCorrectAnswersStep l i).getD j dummyAnswerR).name = "scored-text-answer" →
      ((removeCorrectAnswersStep l i).getD j dummyAnswerR).acceptedAnswers = []) := by
  rw [removeCorrectAnswersStep_getD]
  by_cases h1 : (l.getD i dummyAnswerR).name ∈ choiceAnswerTypes
  · rw [if_pos h1]
    constructor
    · intro _ o ho
      obtain ⟨o2, _, rfl⟩ := List.mem_map.mp ho
      rfl
    · intro hs
      have hs2 : (l.getD j dummyAnswerR).name = "scored-text-answer" := hs
      exact hacc hs2
  · by_cases h2 : (l.getD i dummyAnswerR).name = "scored-text-answer"
    · rw [if_neg h1, if_pos h2]
      by_cases hji : j = i
      · rw [if_pos hji]
        constructor
        · intro hc o ho
          exact hopts hc o ho
        · intro _
          rfl
      · rw [if_neg hji]
        exact ⟨hopts, hacc⟩
    · rw [if_neg h1, if_neg h2]
      exact ⟨hopts, hacc⟩

/-- Folding redaction steps over any index list establishes the goal at every
visited position and preserves it elsewhere. -/
theorem removeCorrectAnswers_fold (idxs : List Nat) :
    ∀ (l : List AnswerR) (j : Nat),
      (j ∈ idxs ∨
        (((l.getD j dummyAnswerR).name ∈ choiceAnswerTypes →
          ∀ o ∈ (l.getD j dummyAnswerR).options, o.score = none) ∧
         ((l.getD j dummyAnswerR).name = "scored-text-answer" →
          (l.getD j dummyAnswerR).acceptedAnswers = []))) →
      (((idxs.foldl removeCorrectAnswersStep l).getD j dummyAnswerR).name ∈ choiceAnswerTypes →
        ∀ o ∈ ((idxs.foldl removeCorrectAnswersStep l).getD j dummyAnswerR).options,
          o.score = none) ∧
      (((idxs.foldl removeCorrectAnswersStep l).getD j dummyAnswerR).name = "scored-text-answer" →
        ((idxs.foldl removeCorrectAnswersStep l).getD j dummyAnswerR).acceptedAnswers = []) := by
  induction idxs with
  | nil =>
    intro l j h
    rcases h with habs | hpq
    · exact absurd habs (List.not_mem_nil j)
    · exact hpq
  | cons i rest ih =>
    intro l j h
    rw [List.foldl_cons]
    apply ih
    rcases h with hmem | hpq
    · rcases List.mem_cons.mp hmem with rfl | hrest
      · exact Or.inr (removeCorrectAnswersStep_establishes l j)
      · exact Or.inl hrest
    · exact Or.inr (removeCorrectAnswersStep_preserves l i j hpq.1 hpq.2)

/-- A redaction step keeps the number of answers. -/
theorem removeCorrectAnswersStep_length (l : List AnswerR) (i : Nat) :
    (removeCorrectAnswersStep l i).length = l.length := by
  simp only [removeCorrectAnswersStep]
  by_cases h1 : (l.getD i dummyAnswerR).name ∈ choiceAnswerTypes
  · rw [if_pos h1]
    simp [clearAllOptionScores]
  · rw [if_neg h1]
    by_cases h2 : (l.getD i dummyAnswerR).name = "scored-text-answer"
    · rw [if_pos h2]
      simp [removeAcceptedAnswersAt, List.mapIdx_eq_enum_map, List.enum_length]
    · rw [if_neg h2]

/-- Folding redaction steps keeps the number of answers. -/
theorem removeCorrectAnswers_fold_length (idxs : List Nat) :
    ∀ l : List AnswerR, (idxs.foldl removeCorrectAnswersStep l).length = l.length := by
  induction idxs with
  | nil => intro l; rfl
  | cons i rest ih =>
    intro l
    rw [List.foldl_cons, ih (removeCorrectAnswersStep l i), removeCorrectAnswersStep_length]

/-- C9: with redaction enabled (the merged `removeCorrectAnswers` value
truthy, as it is by default), the output contains no choice/dropdown option
carrying a score attribute and no scored-text answer retaining an
accepted-answer child. -/
theorem c9_redaction_removes_correct_answers (opts : Option MasteringOptionsJs)
    (answers : List AnswerR)
    (h : jsTruthyBool (effectiveRemoveCorrectAnswersValue opts) = true) :
    ∀ a ∈ maybeRemoveCorrectAnswers opts answers,
      (a.name ∈ choiceAnswerTypes → ∀ o ∈ a.options, o.score = none) ∧
      (a.name = "scored-text-answer" → a.acceptedAnswers = []) := by
  intro a ha
  rw [maybeRemoveCorrectAnswers, h, if_pos rfl] at ha
  rw [removeCorrectAnswersPass] at ha
  obtain ⟨j, hj, rfl⟩ := List.mem_iff_getElem.mp ha
  rw [← List.getD_eq_getElem _ dummyAnswerR hj]
  apply removeCorrectAnswers_fold (List.range answers.length) answers j
  left
  rw [List.mem_range]
  have hlen := removeCorrectAnswers_fold_length (List.range answers.length) answers
  omega

/-- Witness for C9 at the default options and a concrete answers list. -/
theorem c9_redaction_removes_correct_answers_witness :
    jsTruthyBool (effectiveRemoveCorrectAnswersValue none) = true ∧
    ∀ a ∈ maybeRemoveCorrectAnswers none c9Answers,
      (a.name ∈ choiceAnswerTypes → ∀ o ∈ a.options, o.score = none) ∧
      (a.name = "scored-text-answer" → a.acceptedAnswers = []) :=
  ⟨rfl, c9_redaction_removes_correct_answers none c9Answers rfl⟩

/-- The mutual helper agrees with mapping `questionMaxScore`. -/
theorem questionMaxScoreList_eq_map :
    ∀ l : List QuestionT, questionMaxScoreList l = l.map questionMaxScore
  | [] => rfl
  | q :: qs => by rw [questionMaxScoreList, List.map_cons, questionMaxScoreList_eq_map qs]

/-- With no max-answers cap, `countMaxScore` is just the sum. -/
theorem countMaxScore_none (scores : List Int) : countMaxScore scores none = scores.sum := by
  rw [countMaxScore, jsTakeCount]
  have hlen : (sortDescInt scores).length = scores.length :=
    (List.perm_insertionSort _ scores).length_eq
  rw [List.take_of_length_le (le_of_eq hlen)]
  exact (List.perm_insertionSort _ scores).sum_eq

mutual
/-- A question without any max-answers caps (and of the parsed shape) scores
the plain sum of the leaf-answer max-scores below it. -/
theorem questionMaxScore_eq_leafSum (q : QuestionT) (h1 : noMaxAnswersQ q = true)
    (h2 : parsedShapeQ q = true) : questionMaxScore q = leafAnswerSumQ q := by
  cases q with
  | mk ma ext answers children =>
    rw [noMaxAnswersQ, Bool.and_eq_true, decide_eq_true_eq] at h1
    rw [parsedShapeQ, Bool.and_eq_true, Bool.or_eq_true, decide_eq_true_eq, decide_eq_true_eq] at h2
    rw [questionMaxScore, h1.1, countMaxScore_none, leafAnswerSumQ]
    by_cases hc : children.length = 0
    · rw [if_neg (by omega)]
      have : children = [] := List.length_eq_zero.mp hc
      rw [this, leafAnswerSumList]
      simp [AnswerLeaf.maxScore]
    · rw [if_pos (by omega)]
      have hanil : answers = [] := List.length_eq_zero.mp (h2.1.resolve_left hc)
      rw [hanil, questionMaxScoreList_sum_eq children h1.2 h2.2]
      simp

/-- List version of `questionMaxScore_eq_leafSum`. -/
theorem questionMaxScoreList_sum_eq (l : List QuestionT) (h1 : noMaxAnswersList l = true)
    (h2 : parsedShapeList l = true) : (questionMaxScoreList l).sum = leafAnswerSumList l := by
  cases l with
  | nil => rfl
  | cons q qs =>
    rw [noMaxAnswersList, Bool.and_eq_true] at h1
    rw [parsedShapeList, Bool.and_eq_true] at h2
    rw [questionMaxScoreList, leafAnswerSumList, List.sum_cons,
      questionMaxScore_eq_leafSum q h1.1 h2.1, questionMaxScoreList_sum_eq qs h1.2 h2.2]
end

/-- With no caps anywhere, pooling each section's (fully taken) sorted
questions and summing their max-scores gives the total leaf-answer sum. -/
theorem pool_sum_eq (sections : List SectionT)
    (h : ∀ s ∈ sections, s.maxAnswers = none ∧ noMaxAnswersList s.questions = true ∧
      parsedShapeList s.questions = true) :
    ((sections.flatMap (fun s =>
        (sortQuestionsByMaxScoreDesc s.questions).take
          (jsTakeCount s.maxAnswers s.questions.length))).map questionMaxScore).sum =
      (sections.map (fun s => leafAnswerSumList s.questions)).sum := by
  induction sections with
  | nil => rfl
  | cons s rest ih =>
    have hs := h s (List.mem_cons_self s rest)
    have hrest : ∀ t ∈ rest, t.maxAnswers = none ∧ noMaxAnswersList t.questions = true ∧
        parsedShapeList t.questions = true :=
      fun t ht => h t (List.mem_cons_of_mem s ht)
    rw [List.flatMap_cons, List.map_append, List.sum_append, ih hrest, List.map_cons,
      List.sum_cons]
    congr 1
    rw [hs.1, jsTakeCount]
    have hlen : (sortQuestionsByMaxScoreDesc s.questions).length = s.questions.length :=
      (List.perm_insertionSort _ s.questions).length_eq
    rw [List.take_of_length_le (le_of_eq hlen)]
    have hperm : ((sortQuestionsByMaxScoreDesc s.questions).map questionMaxScore).Perm
        (s.questions.map questionMaxScore) :=
      (List.perm_insertionSort _ s.questions).map questionMaxScore
    rw [hperm.sum_eq, ← questionMaxScoreList_eq_map,
      questionMaxScoreList_sum_eq s.questions hs.2.1 hs.2.2]

/-- C4: a question's max-score is the sum of the top-K max-scores of its
answerable set (child questions if any, else its own answers), K being its
declared max-answers or the full set size, with the stable descending sort
breaking ties in document order; sections aggregate their questions the same
way; with no max-answers declared anywhere the exam max-score equals the sum
of all leaf-answer max-scores; and a section declaring max-answers k gets
the sum of its top-k question max-scores. -/
theorem c4_score_propagation :
    (∀ (ma : Option Int) (ext : Nat) (answers : List AnswerLeaf) (children : List QuestionT),
        questionMaxScore (QuestionT.mk ma ext answers children) =
          countMaxScore
            (if children.length ≠ 0 then children.map questionMaxScore
             else answers.map AnswerLeaf.maxScore) ma) ∧
    (∀ s : SectionT,
        sectionMaxScore s = countMaxScore (s.questions.map questionMaxScore) s.maxAnswers) ∧
    (∀ (s : SectionT) (k : Int), s.maxAnswers = some k →
        sectionMaxScore s = ((sortDescInt (s.questions.map questionMaxScore)).take k.toNat).sum) ∧
    (∀ e : ExamT, noMaxAnswersExam e = true → parsedShapeExam e = true →
        examMaxScore e = leafAnswerSumExam e) := by
  refine ⟨fun ma ext answers children => ?_, fun s => ?_, fun s k hk => ?_, fun e h1 h2 => ?_⟩
  · rw [questionMaxScore, questionMaxScoreList_eq_map]
  · rw [sectionMaxScore, questionMaxScoreList_eq_map]
  · rw [sectionMaxScore, questionMaxScoreList_eq_map, hk]
    rfl
  · rw [noMaxAnswersExam, Bool.and_eq_true, decide_eq_true_eq, List.all_eq_true] at h1
    rw [parsedShapeExam, List.all_eq_true] at h2
    rw [examMaxScore, h1.1, countMaxScore_none, examTopQuestionsPool, leafAnswerSumExam]
    apply pool_sum_eq
    intro s hs
    have hx := h1.2 s hs
    rw [Bool.and_eq_true, decide_eq_true_eq] at hx
    exact ⟨hx.1, hx.2, h2 s hs⟩

/-- Witness for C4: a one-section exam with no caps anywhere; its exam
max-score is the sum 2+3+4+1 of all leaf-answer max-scores, and a section
declaring max-answers 1 over questions scoring 2 and 5 scores 5. -/
theorem c4_score_propagation_witness :
    noMaxAnswersExam c4WitnessExam = true ∧ parsedShapeExam c4WitnessExam = true ∧
    examMaxScore c4WitnessExam = leafAnswerSumExam c4WitnessExam ∧
    c4WitnessSection.maxAnswers = some 1 ∧
    sectionMaxScore c4WitnessSection =
      ((sortDescInt (c4WitnessSection.questions.map questionMaxScore)).take (1 : Int).toNat).sum :=
  ⟨by decide, by decide, c4_score_propagation.2.2.2 c4WitnessExam (by decide) (by decide),
    rfl, c4_score_propagation.2.2.1 c4WitnessSection 1 rfl⟩

/-- `Nat.toDigitsCore` with positive fuel always extends its accumulator. -/
theorem toDigitsCore_length_lt (b : Nat) :
    ∀ (f n : Nat) (tl : List Char), tl.length < (Nat.toDigitsCore b (f + 1) n tl).length := by
  intro f
  induction f with
  | zero =>
    intro n tl
    rw [Nat.toDigitsCore]
    split
    · simp
    · rw [Nat.toDigitsCore]
      simp
  | succ f ih =>
    intro n tl
    rw [Nat.toDigitsCore]
    split
    · simp
    · calc tl.length < (Nat.digitChar (n % b) :: tl).length := by simp
        _ < _ := ih (n / b) (Nat.digitChar (n % b) :: tl)

/-- The decimal rendering of a natural number is never the empty string. -/
theorem natToString_ne_empty (n : Nat) : toString n ≠ "" := by
  intro h
  have hdata : (toString n).data = [] := by rw [h]
  have : (Nat.toDigitsCore 10 (n + 1) n []).length = 0 := by
    simpa [toString, Nat.repr, Nat.toDigits, List.asString] using congrArg List.length hdata
  have hpos := toDigitsCore_length_lt 10 n n []
  simp only [List.length_nil] at hpos
  omega

/-- Appending a nonempty string yields a nonempty string. -/
theorem append_ne_empty_of_right (a b : String) (hb : b ≠ "") : a ++ b ≠ "" := by
  intro h
  apply hb
  have hdata : a.data ++ b.data = [] := congrArg String.data h
  have : b.data = [] := (List.append_eq_nil.mp hdata).2
  cases b
  simp_all

/-- The display number produced for any question and prefix. -/
theorem addQuestionNumber_displayNumber (q : QuestionT) (i : Nat) (pfx : String) :
    (addQuestionNumber q i pfx).displayNumber =
      (if pfx ≠ "" then pfx ++ "." else "") ++ toString (i + 1) := by
  cases q with
  | mk ma ext answers children =>
    rw [addQuestionNumber]
    rfl

/-- Position-wise description of `addQuestionNumberList`. -/
theorem addQuestionNumberList_getD :
    ∀ (l : List QuestionT) (k : Nat) (pfx : String) (j : Nat), j < l.length →
      (addQuestionNumberList l k pfx).getD j dummyNumberedQuestion =
        addQuestionNumber (l.getD j dummyQuestionT) (k + j) pfx := by
  intro l
  induction l with
  | nil => intro k pfx j hj; simp at hj
  | cons q qs ih =>
    intro k pfx j hj
    cases j with
    | zero => rfl
    | succ j =>
      rw [addQuestionNumberList]
      have : k + (j + 1) = (k + 1) + j := by omega
      rw [this]
      exact ih (k + 1) pfx j (by simpa using hj)

/-- C8: sections are numbered 1..N in document order; a question numbered
with the empty prefix is its index+1, a child question appends
`"." ++ (childIndex+1)` to its parent's number; a question's sole answer
shares its number, while one of several answers gets
`question.number ++ "." ++ (answerIndex+1)`; only external-material
attachments are lettered, from the fixed 29-letter alphabet A..Z,Å,Ä,Ö —
exam-level material independently of the questions, each question's material
restarting at A with `questionNumber ++ "." ++ letter`. -/
theorem c8_display_numbering :
    (∀ e : ExamT, sectionDisplayNumbers e =
        (List.range e.sections.length).map (fun i => toString (i + 1))) ∧
    (∀ (q : QuestionT) (i : Nat), (addQuestionNumber q i "").displayNumber = toString (i + 1)) ∧
    (∀ (q : QuestionT) (i : Nat) (pfx : String) (j : Nat), j < q.children.length →
        ((addQuestionNumber q i pfx).children.getD j dummyNumberedQuestion).displayNumber =
          (addQuestionNumber q i pfx).displayNumber ++ "." ++ toString (j + 1)) ∧
    (∀ dn : String, answerDisplayNumbers dn 1 = [dn]) ∧
    (∀ (dn : String) (n j : Nat), n ≠ 1 → j < n →
        (answerDisplayNumbers dn n).getD j "" = dn ++ "." ++ toString (j + 1)) ∧
    (alphabet.length = 29 ∧ (List.range 29).map alphabetAt =
      ["A", "B", "C", "D", "E", "F", "G", "H", "I", "J", "K", "L", "M",
       "N", "O", "P", "Q", "R", "S", "T", "U", "V", "W", "X", "Y", "Z",
       "Å", "Ä", "Ö"].map some) ∧
    (∀ e : ExamT, examAttachmentDisplayNumbers e =
        (List.range e.extMaterialAttachments).map alphabetAt) ∧
    (∀ (dn : String) (c : Nat), questionAttachmentDisplayNumbers dn c =
        (List.range c).map (fun i => dn ++ "." ++ (alphabetAt i).getD "undefined")) ∧
    (∀ (dn : String) (c : Nat), 0 < c →
        (questionAttachmentDisplayNumbers dn c).getD 0 "" = dn ++ "." ++ "A") := by
  refine ⟨fun e => rfl, fun q i => ?_, fun q i pfx j hj => ?_, fun dn => rfl,
    fun dn n j hn hj => ?_, ⟨by decide, by decide⟩, fun e => rfl, fun dn c => rfl,
    fun dn c hc => ?_⟩
  · rw [addQuestionNumber_displayNumber]
    simp
  · cases q with
    | mk ma ext answers children =>
      have hch : (addQuestionNumber (QuestionT.mk ma ext answers children) i pfx).children =
          addQuestionNumberList children 0
            ((if pfx ≠ "" then pfx ++ "." else "") ++ toString (i + 1)) := by
        rw [addQuestionNumber]
        rfl
      rw [hch, addQuestionNumberList_getD children 0 _ j (by simpa using hj),
        addQuestionNumber_displayNumber, addQuestionNumber_displayNumber]
      have hne : (if pfx ≠ "" then pfx ++ "." else "") ++ toString (i + 1) ≠ "" :=
        append_ne_empty_of_right _ _ (natToString_ne_empty (i + 1))
      rw [if_pos hne]
      simp
  · rw [answerDisplayNumbers,
      getD_map _ (List.range n) j (by simpa using hj) 0 ""]
    rw [List.getD_eq_getElem _ 0 (by simpa using hj), List.getElem_range, if_neg hn]
  · rw [questionAttachmentDisplayNumbers,
      getD_map _ (List.range c) 0 (by simpa using hc) 0 ""]
    rw [List.getD_eq_getElem _ 0 (by simpa using hc), List.getElem_range]
    rfl

/-- Witness for C8 at a concrete branch question: its first child is numbered
`parent.number ++ ".1"`. -/
theorem c8_display_numbering_witness :
    0 < c8WitnessQuestion.children.length ∧
    ((addQuestionNumber c8WitnessQuestion 2 "").children.getD 0 dummyNumberedQuestion).displayNumber =
      (addQuestionNumber c8WitnessQuestion 2 "").displayNumber ++ "." ++ toString (0 + 1) :=
  ⟨by decide, c8_display_numbering.2.2.1 c8WitnessQuestion 2 "" 0 (by decide)⟩

/-- `orderedInsert` with a boolean key comparator commutes with `map`. -/
theorem orderedInsert_map_key {α β : Type} (f : α → β) (cmp : β → β → Bool) (x : α) :
    ∀ l : List α,
      List.orderedInsert (fun a b => cmp a b = true) (f x) (l.map f) =
        (List.orderedInsert (fun a b => cmp (f a) (f b) = true) x l).map f := by
  intro l
  induction l with
  | nil => rfl
  | cons b tl ih =>
    rw [List.map_cons, List.orderedInsert, List.orderedInsert]
    by_cases h : cmp (f x) (f b) = true
    · rw [if_pos h, if_pos h]
      rfl
    · rw [if_neg h, if_neg h, List.map_cons, ih]

/-- `insertionSort` with a boolean key comparator commutes with `map`. -/
theorem insertionSort_map_key {α β : Type} (f : α → β) (cmp : β → β → Bool) :
    ∀ l : List α,
      List.insertionSort (fun a b => cmp a b = true) (l.map f) =
        (List.insertionSort (fun a b => cmp (f a) (f b) = true) l).map f := by
  intro l
  induction l with
  | nil => rfl
  | cons b tl ih =>
    rw [List.map_cons, List.insertionSort, List.insertionSort, ih, orderedInsert_map_key]

/-- `orderedInsert` only depends on the comparator extensionally. -/
theorem orderedInsert_congr {α : Type} (r₁ r₂ : α → α → Prop) [DecidableRel r₁] [DecidableRel r₂]
    (h : ∀ a b, r₁ a b ↔ r₂ a b) (x : α) :
    ∀ l : List α, List.orderedInsert r₁ x l = List.orderedInsert r₂ x l := by
  intro l
  induction l with
  | nil => rfl
  | cons b tl ih =>
    rw [List.orderedInsert, List.orderedInsert]
    by_cases hx : r₁ x b
    · rw [if_pos hx, if_pos ((h x b).mp hx)]
    · rw [if_neg hx, if_neg (fun hc => hx ((h x b).mpr hc)), ih]

/-- `insertionSort` only depends on the comparator extensionally. -/
theorem insertionSort_congr {α : Type} (r₁ r₂ : α → α → Prop) [DecidableRel r₁] [DecidableRel r₂]
    (h : ∀ a b, r₁ a b ↔ r₂ a b) :
    ∀ l : List α, List.insertionSort r₁ l = List.insertionSort r₂ l := by
  intro l
  induction l with
  | nil => rfl
  | cons b tl ih =>
    rw [List.insertionSort, List.insertionSort, ih, orderedInsert_congr r₁ r₂ h]

/-- `find?` on a list whose only satisfying element is `x` returns `x`. -/
theorem find?_unique {α : Type} (p : α → Bool) :
    ∀ (l : List α) (x : α), x ∈ l → p x = true → (∀ y ∈ l, p y = true → y = x) →
      l.find? p = some x := by
  intro l
  induction l with
  | nil => intro x hx; exact absurd hx (List.not_mem_nil x)
  | cons a tl ih =>
    intro x hx hpx huniq
    by_cases ha : p a = true
    · rw [List.find?_cons_of_pos _ ha]
      rw [huniq a (List.mem_cons_self a tl) ha]
    · rw [List.find?_cons_of_neg _ ha]
      rcases List.mem_cons.mp hx with rfl | htl
      · exact absurd hpx ha
      · exact ih x htl hpx (fun y hy => huniq y (List.mem_cons_of_mem a hy))

/-- Words reduced mod 2^32 stay below 2^32. -/
theorem wordMod_lt (x : Nat) : Sha256.wordMod x < 4294967296 :=
  Nat.mod_lt x (by decide)

/-- One compression round outputs eight words below 2^32. -/
theorem compress_facts (h block : List Nat) :
    (Sha256.compress h block).length = 8 ∧ ∀ w ∈ Sha256.compress h block, w < 4294967296 := by
  constructor
  · rfl
  · intro w hw
    simp only [Sha256.compress, List.mem_cons, List.not_mem_nil, or_false] at hw
    rcases hw with rfl | rfl | rfl | rfl | rfl | rfl | rfl | rfl <;> exact wordMod_lt _

/-- Folding compression rounds preserves the shape facts. -/
theorem foldl_compress_facts :
    ∀ (cs : List (List Nat)) (h : List Nat), h.length = 8 → (∀ w ∈ h, w < 4294967296) →
      (cs.foldl Sha256.compress h).length = 8 ∧
        ∀ w ∈ cs.foldl Sha256.compress h, w < 4294967296 := by
  intro cs
  induction cs with
  | nil => intro h h1 h2; exact ⟨h1, h2⟩
  | cons c rest ih =>
    intro h _ _
    rw [List.foldl_cons]
    exact ih (Sha256.compress h c) (compress_facts h c).1 (compress_facts h c).2

/-- A SHA-256 digest is eight words below 2^32. -/
theorem sha256Words_facts (msg : List Nat) :
    (Sha256.sha256Words msg).length = 8 ∧ ∀ w ∈ Sha256.sha256Words msg, w < 4294967296 :=
  foldl_compress_facts (Sha256.chunks (Sha256.pad msg)) Sha256.initialHash (by decide) (by decide)

/-- Hex digits of distinct nibbles are distinct. -/
theorem hexDigit_inj : ∀ a, a < 16 → ∀ b, b < 16 →
    (Sha256.hexDigit a = Sha256.hexDigit b ↔ a = b) := by decide

/-- Hex digits are ordered like their nibbles. -/
theorem hexDigit_mono : ∀ a, a < 16 → ∀ b, b < 16 →
    ((Sha256.hexDigit a).toNat < (Sha256.hexDigit b).toNat ↔ a < b) := by decide

/-- Splitting a positional fold at its accumulator. -/
theorem foldl_mul_add (B : Nat) :
    ∀ (l : List Nat) (a : Nat),
      l.foldl (fun acc d => acc * B + d) a =
        a * B ^ l.length + l.foldl (fun acc d => acc * B + d) 0 := by
  intro l
  induction l with
  | nil => intro a; simp
  | cons d ds ih =>
    intro a
    rw [List.foldl_cons, List.foldl_cons, ih (a * B + d), ih (0 * B + d),
      List.length_cons, pow_succ]
    ring

/-- Positional value of a nonempty nibble list, split at the head. -/
theorem foldl_cons_val (B d : Nat) (ds : List Nat) :
    (d :: ds).foldl (fun acc x => acc * B + x) 0 =
      d * B ^ ds.length + ds.foldl (fun acc x => acc * B + x) 0 := by
  rw [List.foldl_cons]
  have h := foldl_mul_add B ds (0 * B + d)
  simpa using h

/-- The value of a nibble list is below `16 ^ length`. -/
theorem foldl16_lt :
    ∀ l : List Nat, (∀ x ∈ l, x < 16) →
      l.foldl (fun acc d => acc * 16 + d) 0 < 16 ^ l.length := by
  intro l
  induction l with
  | nil => intro _; decide
  | cons d ds ih =>
    intro hb
    have hd : d < 16 := hb d (List.mem_cons_self d ds)
    have hds := ih (fun x hx => hb x (List.mem_cons_of_mem d hx))
    rw [foldl_cons_val]
    calc d * 16 ^ ds.length + ds.foldl (fun acc x => acc * 16 + x) 0
        < d * 16 ^ ds.length + 16 ^ ds.length := by omega
      _ = (d + 1) * 16 ^ ds.length := by ring
      _ ≤ 16 * 16 ^ ds.length := Nat.mul_le_mul_right _ (by omega)
      _ = 16 ^ (d :: ds).length := by rw [List.length_cons, pow_succ]; ring

/-- Strictly smaller leading digit means strictly smaller value (for
equal-length nibble lists). -/
theorem foldl16_lt_of_head_lt (a b : Nat) (t1 t2 : List Nat) (hlen : t1.length = t2.length)
    (ht1 : ∀ x ∈ t1, x < 16) (hab : a < b) :
    (a :: t1).foldl (fun acc d => acc * 16 + d) 0 <
      (b :: t2).foldl (fun acc d => acc * 16 + d) 0 := by
  rw [foldl_cons_val, foldl_cons_val]
  have h1 := foldl16_lt t1 ht1
  calc a * 16 ^ t1.length + t1.foldl (fun acc d => acc * 16 + d) 0
      < a * 16 ^ t1.length + 16 ^ t1.length := by omega
    _ = (a + 1) * 16 ^ t1.length := by ring
    _ ≤ b * 16 ^ t1.length := Nat.mul_le_mul_right _ (by omega)
    _ = b * 16 ^ t2.length := by rw [hlen]
    _ ≤ b * 16 ^ t2.length + t2.foldl (fun acc d => acc * 16 + d) 0 := Nat.le_add_right _ _

/-- Lexicographic comparison of equal-length hex renderings matches the
numeric comparison of the nibble values. -/
theorem hexCharsLe_iff :
    ∀ d1 d2 : List Nat, d1.length = d2.length → (∀ x ∈ d1, x < 16) → (∀ x ∈ d2, x < 16) →
      (hexCharsLe (d1.map Sha256.hexDigit) (d2.map Sha256.hexDigit) = true ↔
        d1.foldl (fun acc d => acc * 16 + d) 0 ≤ d2.foldl (fun acc d => acc * 16 + d) 0) := by
  intro d1
  induction d1 with
  | nil =>
    intro d2 hlen _ _
    have : d2 = [] := List.length_eq_zero.mp hlen.symm
    subst this
    simp [hexCharsLe]
  | cons a t1 ih =>
    intro d2 hlen hb1 hb2
    cases d2 with
    | nil => simp at hlen
    | cons b t2 =>
      have hlen2 : t1.length = t2.length := by simpa using hlen
      have ha : a < 16 := hb1 a (List.mem_cons_self a t1)
      have hbb : b < 16 := hb2 b (List.mem_cons_self b t2)
      have ht1 : ∀ x ∈ t1, x < 16 := fun x hx => hb1 x (List.mem_cons_of_mem a hx)
      have ht2 : ∀ x ∈ t2, x < 16 := fun x hx => hb2 x (List.mem_cons_of_mem b hx)
      rw [List.map_cons, List.map_cons, hexCharsLe]
      by_cases hab : a = b
      · subst hab
        rw [if_pos rfl, ih t2 hlen2 ht1 ht2, foldl_cons_val, foldl_cons_val, hlen2,
          add_le_add_iff_left]
      · rw [if_neg (fun hc => hab ((hexDigit_inj a ha b hbb).mp hc))]
        rw [decide_eq_true_eq, hexDigit_mono a ha b hbb]
        constructor
        · intro hlt
          exact Nat.le_of_lt (foldl16_lt_of_head_lt a b t1 t2 hlen2 ht1 hlt)
        · intro hle
          rcases Nat.lt_trichotomy a b with h | h | h
          · exact h
          · exact absurd h hab
          · have hlt := foldl16_lt_of_head_lt b a t2 t1 hlen2.symm ht2 h
            exact absurd (Nat.lt_of_le_of_lt hle hlt) (Nat.lt_irrefl _)

/-- The nibble expansion of a word list has eight entries per word. -/
theorem flatMap_nibbles_length :
    ∀ ws : List Nat,
      (ws.flatMap (fun w => [w >>> 28 % 16, w >>> 24 % 16, w >>> 20 % 16, w >>> 16 % 16,
        w >>> 12 % 16, w >>> 8 % 16, w >>> 4 % 16, w % 16])).length = 8 * ws.length := by
  intro ws
  induction ws with
  | nil => rfl
  | cons w rest ih =>
    rw [List.flatMap_cons, List.length_append, ih, List.length_cons]
    simp
    omega

/-- Every nibble is below 16. -/
theorem nibbles_bound (w x : Nat)
    (hx : x ∈ [w >>> 28 % 16, w >>> 24 % 16, w >>> 20 % 16, w >>> 16 % 16,
      w >>> 12 % 16, w >>> 8 % 16, w >>> 4 % 16, w % 16]) : x < 16 := by
  simp only [List.mem_cons, List.not_mem_nil, or_false] at hx
  rcases hx with rfl | rfl | rfl | rfl | rfl | rfl | rfl | rfl <;> exact Nat.mod_lt _ (by decide)

/-- The positional value of a word's nibbles is the word itself. -/
theorem nibbles_val (w : Nat) (hw : w < 4294967296) :
    ([w >>> 28 % 16, w >>> 24 % 16, w >>> 20 % 16, w >>> 16 % 16,
      w >>> 12 % 16, w >>> 8 % 16, w >>> 4 % 16, w % 16].foldl
        (fun acc d => acc * 16 + d) 0) = w := by
  simp only [List.foldl_cons, List.foldl_nil, Nat.shiftRight_eq_div_pow]
  omega

/-- The big-endian word value of a digest equals the positional value of its
nibble expansion. -/
theorem digestVal_eq_nibbles :
    ∀ ws : List Nat, (∀ w ∈ ws, w < 4294967296) →
      ws.foldl (fun acc w => acc * 4294967296 + w) 0 =
        (ws.flatMap (fun w => [w >>> 28 % 16, w >>> 24 % 16, w >>> 20 % 16, w >>> 16 % 16,
          w >>> 12 % 16, w >>> 8 % 16, w >>> 4 % 16, w % 16])).foldl
          (fun acc d => acc * 16 + d) 0 := by
  intro ws
  induction ws with
  | nil => intro _; rfl
  | cons w rest ih =>
    intro hb
    have hw : w < 4294967296 := hb w (List.mem_cons_self w rest)
    have hrest : ∀ x ∈ rest, x < 4294967296 := fun x hx => hb x (List.mem_cons_of_mem w hx)
    rw [foldl_cons_val, List.flatMap_cons, List.foldl_append, nibbles_val w hw,
      foldl_mul_add 16 _ w, flatMap_nibbles_length, ← ih hrest]
    have hpow : (16 : Nat) ^ (8 * rest.length) = 4294967296 ^ rest.length := by
      rw [pow_mul]
      norm_num
    rw [hpow]

/-- The hex digest is the hex-digit rendering of the nibble expansion. -/
theorem digestHex_eq_nibbles (msg : List Nat) :
    Sha256.digestHex msg =
      ((Sha256.sha256Words msg).flatMap (fun w => [w >>> 28 % 16, w >>> 24 % 16, w >>> 20 % 16,
        w >>> 16 % 16, w >>> 12 % 16, w >>> 8 % 16, w >>> 4 % 16, w % 16])).map
        Sha256.hexDigit := by
  rw [List.map_flatMap]
  rfl

/-- Bridge: the lexicographic comparison of two hex digests (what
`_.sortBy` does on the hash strings) agrees with comparing the digests as
numbers. -/
theorem createHash_le_iff (s1 s2 : String) :
    (hexCharsLe (Sha256.createHash s1) (Sha256.createHash s2) = true) ↔
      Sha256.digestVal (Sha256.utf8Bytes s1) ≤ Sha256.digestVal (Sha256.utf8Bytes s2) := by
  rw [Sha256.createHash, Sha256.createHash, digestHex_eq_nibbles, digestHex_eq_nibbles,
    Sha256.digestVal, Sha256.digestVal,
    digestVal_eq_nibbles _ (sha256Words_facts (Sha256.utf8Bytes s1)).2,
    digestVal_eq_nibbles _ (sha256Words_facts (Sha256.utf8Bytes s2)).2]
  apply hexCharsLe_iff
  · rw [flatMap_nibbles_length, flatMap_nibbles_length,
      (sha256Words_facts (Sha256.utf8Bytes s1)).1, (sha256Words_facts (Sha256.utf8Bytes s2)).1]
  · intro x hx
    obtain ⟨w, _, hw⟩ := List.mem_flatMap.mp hx
    exact nibbles_bound w x hw
  · intro x hx
    obtain ⟨w, _, hw⟩ := List.mem_flatMap.mp hx
    exact nibbles_bound w x hw

/-- The stable sort inside `shuffleOne`, pushed down to a sort of the original
positions: it equals the spec-side `shufflePermutation` — a function of the
option count, the answer's question-id and the secret alone — materialised as
(position, option) pairs. -/
theorem shuffleOne_sorted (secret : String) (a : ChAnswer) :
    List.insertionSort
      (fun p q : Nat × AnsOption =>
        hexCharsLe
          (Sha256.createHash (toString a.options.length ++ a.questionId ++ toString p.1 ++ secret))
          (Sha256.createHash (toString a.options.length ++ a.questionId ++ toString q.1 ++ secret)) =
          true)
      a.options.enum =
    (shufflePermutation a.options.length a.questionId secret).map
      (fun i => (i, a.options.getD i dummyAnsOption)) := by
  rw [enum_eq_range_map a.options dummyAnsOption,
    insertionSort_map_key (fun i => (i, a.options.getD i dummyAnsOption))
      (fun p q : Nat × AnsOption =>
        hexCharsLe
          (Sha256.createHash (toString a.options.length ++ a.questionId ++ toString p.1 ++ secret))
          (Sha256.createHash (toString a.options.length ++ a.questionId ++ toString q.1 ++ secret)))
      (List.range a.options.length)]
  rw [shufflePermutation]
  congr 1
  apply insertionSort_congr
  intro i j
  exact createHash_le_iff
    (toString a.options.length ++ a.questionId ++ toString i ++ secret)
    (toString a.options.length ++ a.questionId ++ toString j ++ secret)

/-- `shuffleOne`, by definition, as the sorted pairs with the first no-answer
pair moved last, projected back to options. -/
theorem shuffleOne_options_eq (secret : String) (a : ChAnswer) :
    (shuffleOne secret a).options =
      (match a.options.enum.find? (fun p : Nat × AnsOption => p.2.typ.getD "normal" = "no-answer") with
       | some na =>
          (List.insertionSort
            (fun p q : Nat × AnsOption =>
              hexCharsLe
                (Sha256.createHash
                  (toString a.options.length ++ a.questionId ++ toString p.1 ++ secret))
                (Sha256.createHash
                  (toString a.options.length ++ a.questionId ++ toString q.1 ++ secret)) = true)
            a.options.enum).filter (fun p : Nat × AnsOption => p.1 ≠ na.1) ++ [na]
       | none =>
          List.insertionSort
            (fun p q : Nat × AnsOption =>
              hexCharsLe
                (Sha256.createHash
                  (toString a.options.length ++ a.questionId ++ toString p.1 ++ secret))
                (Sha256.createHash
                  (toString a.options.length ++ a.questionId ++ toString q.1 ++ secret)) = true)
            a.options.enum).map (fun p : Nat × AnsOption => p.2) := rfl

/-- `shuffleOne` when no option is marked no-answer. -/
theorem shuffleOne_options_eq_none (secret : String) (a : ChAnswer)
    (hfind : a.options.enum.find?
      (fun p : Nat × AnsOption => p.2.typ.getD "normal" = "no-answer") = none) :
    (shuffleOne secret a).options =
      (List.insertionSort
        (fun p q : Nat × AnsOption =>
          hexCharsLe
            (Sha256.createHash
              (toString a.options.length ++ a.questionId ++ toString p.1 ++ secret))
            (Sha256.createHash
              (toString a.options.length ++ a.questionId ++ toString q.1 ++ secret)) = true)
        a.options.enum).map (fun p : Nat × AnsOption => p.2) := by
  rw [shuffleOne_options_eq, hfind]

/-- `shuffleOne` when the first no-answer pair is `na`. -/
theorem shuffleOne_options_eq_some (secret : String) (a : ChAnswer) (na : Nat × AnsOption)
    (hfind : a.options.enum.find?
      (fun p : Nat × AnsOption => p.2.typ.getD "normal" = "no-answer") = some na) :
    (shuffleOne secret a).options =
      ((List.insertionSort
        (fun p q : Nat × AnsOption =>
          hexCharsLe
            (Sha256.createHash
              (toString a.options.length ++ a.questionId ++ toString p.1 ++ secret))
            (Sha256.createHash
              (toString a.options.length ++ a.questionId ++ toString q.1 ++ secret)) = true)
        a.options.enum).filter (fun p : Nat × AnsOption => p.1 ≠ na.1) ++ [na]).map
          (fun p : Nat × AnsOption => p.2) := by
  rw [shuffleOne_options_eq, hfind]

/-- With no no-answer option, shuffling is exactly applying the
hash-determined permutation. -/
theorem shuffleOne_no_noAnswer (secret : String) (a : ChAnswer)
    (h : ∀ o ∈ a.options, o.typ.getD "normal" ≠ "no-answer") :
    (shuffleOne secret a).options =
      permuteBy (shufflePermutation a.options.length a.questionId secret) a.options := by
  have hfind : a.options.enum.find? (fun p => p.2.typ.getD "normal" = "no-answer") = none := by
    rw [List.find?_eq_none]
    intro p hp
    rw [enum_eq_range_map a.options dummyAnsOption] at hp
    obtain ⟨j, hj, rfl⟩ := List.mem_map.mp hp
    simp only [decide_eq_true_eq]
    by_cases hjl : j < a.options.length
    · exact h _ (List.getD_eq_getElem a.options dummyAnsOption hjl ▸ List.getElem_mem _)
    · rw [List.getD_eq_default _ _ (Nat.le_of_not_lt hjl)]
      decide
  rw [shuffleOne_options_eq_none secret a hfind, shuffleOne_sorted, List.map_map]
  rfl

/-- With exactly one no-answer option, at original position `k`, shuffling is
the hash-determined permutation with `k` moved last. -/
theorem shuffleOne_with_noAnswer (secret : String) (a : ChAnswer) (k : Nat)
    (hk : k < a.options.length)
    (hno : (a.options.getD k dummyAnsOption).typ.getD "normal" = "no-answer")
    (huniq : ∀ j, j < a.options.length →
      (a.options.getD j dummyAnsOption).typ.getD "normal" = "no-answer" → j = k) :
    (shuffleOne secret a).options =
      permuteBy ((shufflePermutation a.options.length a.questionId secret).erase k ++ [k])
        a.options := by
  have hfind : a.options.enum.find? (fun p => p.2.typ.getD "normal" = "no-answer") =
      some (k, a.options.getD k dummyAnsOption) := by
    apply find?_unique
    · rw [enum_eq_range_map a.options dummyAnsOption]
      exact List.mem_map.mpr ⟨k, List.mem_range.mpr hk, rfl⟩
    · simpa using hno
    · intro y hy hpy
      rw [enum_eq_range_map a.options dummyAnsOption] at hy
      obtain ⟨j, hj, rfl⟩ := List.mem_map.mp hy
      simp only [decide_eq_true_eq] at hpy
      by_cases hjl : j < a.options.length
      · rw [huniq j hjl hpy]
      · rw [List.getD_eq_default _ _ (Nat.le_of_not_lt hjl)] at hpy
        exact absurd hpy (by decide)
  have hnodup : (shufflePermutation a.options.length a.questionId secret).Nodup :=
    (List.perm_insertionSort _ (List.range a.options.length)).symm.nodup
      (List.nodup_range a.options.length)
  rw [shuffleOne_options_eq_some secret a (k, a.options.getD k dummyAnsOption) hfind,
    shuffleOne_sorted,
    show ((k, a.options.getD k dummyAnsOption) : Nat × AnsOption).1 = k from rfl]
  have hfilter :
      ((shufflePermutation a.options.length a.questionId secret).map
        (fun i => (i, a.options.getD i dummyAnsOption))).filter
          (fun p : Nat × AnsOption => p.1 ≠ k) =
      ((shufflePermutation a.options.length a.questionId secret).erase k).map
        (fun i => (i, a.options.getD i dummyAnsOption)) := by
    rw [List.filter_map]
    congr 1
    have hcongr :
        (shufflePermutation a.options.length a.questionId secret).filter
          ((fun p : Nat × AnsOption => decide (p.1 ≠ k)) ∘
            (fun i => (i, a.options.getD i dummyAnsOption))) =
        (shufflePermutation a.options.length a.questionId secret).filter (fun i => i != k) := by
      apply List.filter_congr
      intro x _
      by_cases hxk : x = k <;> simp [hxk]
    rw [hcongr, ← List.Nodup.erase_eq_filter hnodup k]
  rw [hfilter, List.map_append, List.map_map, permuteBy, List.map_append]
  rfl

/-- C3: with a shuffle secret in effect, answers marked `ordering=fixed` (and
non-choice answers) are never reordered; every other choice/dropdown answer
has its options keyed by the SHA-256 hash of
`optionCount ++ answerId ++ position ++ secret` and reordered ascending by
the hash value, the permutation (`shufflePermutation`) being a function of
(optionCount, answerId, secret) alone; an option marked `type=no-answer` is
then placed last regardless of its hash. -/
theorem c3_shuffle_algorithm :
    (∀ (secret : String) (answers : List ChAnswer) (i : Nat), i < answers.length →
        ((answers.getD i dummyChAnswer).name ∉ choiceAnswerTypes ∨
         (answers.getD i dummyChAnswer).ordering = some "fixed") →
        (shuffleAnswerOptions secret answers).getD i dummyChAnswer =
          answers.getD i dummyChAnswer) ∧
    (∀ (secret : String) (answers : List ChAnswer) (i : Nat), i < answers.length →
        (answers.getD i dummyChAnswer).name ∈ choiceAnswerTypes →
        (answers.getD i dummyChAnswer).ordering ≠ some "fixed" →
        (shuffleAnswerOptions secret answers).getD i dummyChAnswer =
          shuffleOne secret (answers.getD i dummyChAnswer)) ∧
    (∀ (secret : String) (a : ChAnswer),
        (∀ o ∈ a.options, o.typ.getD "normal" ≠ "no-answer") →
        (shuffleOne secret a).options =
          permuteBy (shufflePermutation a.options.length a.questionId secret) a.options) ∧
    (∀ (secret : String) (a : ChAnswer) (k : Nat), k < a.options.length →
        (a.options.getD k dummyAnsOption).typ.getD "normal" = "no-answer" →
        (∀ j, j < a.options.length →
          (a.options.getD j dummyAnsOption).typ.getD "normal" = "no-answer" → j = k) →
        (shuffleOne secret a).options =
          permuteBy ((shufflePermutation a.options.length a.questionId secret).erase k ++ [k])
            a.options) := by
  refine ⟨fun secret answers i hi h => ?_, fun secret answers i hi h1 h2 => ?_,
    shuffleOne_no_noAnswer, shuffleOne_with_noAnswer⟩
  · rw [shuffleAnswerOptions, getD_map _ answers i hi dummyChAnswer dummyChAnswer]
    rw [if_neg]
    intro hc
    rcases h with h | h
    · exact h hc.1
    · exact hc.2 h
  · rw [shuffleAnswerOptions, getD_map _ answers i hi dummyChAnswer dummyChAnswer]
    rw [if_pos ⟨h1, h2⟩]

/-- Witness for C3 at a concrete dropdown answer whose middle option is
`no-answer`: the shuffle is its hash permutation with position 1 moved
last. -/
theorem c3_shuffle_algorithm_witness :
    1 < c3WitnessAnswer.options.length ∧
    (c3WitnessAnswer.options.getD 1 dummyAnsOption).typ.getD "normal" = "no-answer" ∧
    (shuffleOne defaultShuffleSecret c3WitnessAnswer).options =
      permuteBy ((shufflePermutation c3WitnessAnswer.options.length c3WitnessAnswer.questionId
          defaultShuffleSecret).erase 1 ++ [1]) c3WitnessAnswer.options :=
  ⟨by decide, by decide,
    c3_shuffle_algorithm.2.2.2 defaultShuffleSecret c3WitnessAnswer 1 (by decide) (by decide)
      (by decide)⟩
